import Mathlib

/-!
Verification development for the `tsee` MPEG2-TS PSI library
(`mpeg2psi/section.py`, `mpeg2psi/section_parser.py`,
`mpeg2psi/section_builder.py`, `mpeg2psi/pat.py`).

Bytes are modelled as `Nat` (Python ints carried in lists; the source never
masks list elements to the 0..255 range on its own).  Python exceptions
(`TypeError` on `len(None)`, `AttributeError` on a never-assigned attribute,
`IndexError` on a too-short buffer) are modelled by `Option`: `none` means the
call raised.  Attributes that Python assigns only on some paths are modelled
as `Option` fields that start out `none`; reading such a field through a
`match` whose `none` arm produces `none` models the `AttributeError`.

Indexed reads `data[i]` inside the field getters use `List.getD _ _ 0`.  In
Python an out-of-range read raises `IndexError`, but every call site in the
source guards the length first (`_parse_header` checks `len(data) >= 3` and
`>= 8` before the getters run), and the spec declares short-buffer behaviour
undefined, so the defaulted read is only ever evaluated in-range in any
behaviour this file reasons about.  Python slices (`data[a:b]`) clamp and are
modelled exactly by `drop`/`take`.
-/

namespace Mpeg2Psi

/-! ## Field getters (`section_parser.py` / top of `section.py`) -/

/-- `get_table_id(data): return data[0]` -/
def get_table_id (data : List Nat) : Nat := data.getD 0 0

/-- `get_section_syntax_indicator(data)`: true iff bit 7 of byte 1 is set. -/
def get_section_syntax_indicator (data : List Nat) : Bool :=
  data.getD 1 0 &&& 0x80 ≠ 0

/-- `get_private_indicator(data)`: true iff bit 6 of byte 1 is set. -/
def get_private_indicator (data : List Nat) : Bool :=
  data.getD 1 0 &&& 0x40 ≠ 0

/-- `get_section_length(data)`: `((data[1] & 0b00001111) << 8) + data[2]`. -/
def get_section_length (data : List Nat) : Nat :=
  ((data.getD 1 0 &&& 0x0f) <<< 8) + data.getD 2 0

/-- `get_table_id_extension(data)`: `(data[3] << 8) + data[4]`. -/
def get_table_id_ext (data : List Nat) : Nat :=
  (data.getD 3 0 <<< 8) + data.getD 4 0

/-- `get_version_number(data)`: `(data[5] & 0b00111110) >> 1`. -/
def get_version_number (data : List Nat) : Nat :=
  (data.getD 5 0 &&& 0x3e) >>> 1

/-- `get_current_next_indicator(data)`: true iff bit 0 of byte 5 is set. -/
def get_current_next_indicator (data : List Nat) : Bool :=
  data.getD 5 0 &&& 0x01 ≠ 0

/-- `get_section_number(data): return data[6]` -/
def get_section_number (data : List Nat) : Nat := data.getD 6 0

/-- `get_last_section_number(data): return data[7]` -/
def get_last_section_number (data : List Nat) : Nat := data.getD 7 0

/-- `get_data(data)` (`section_parser.py`, identical copy in `section.py`):
offset 3 and length `section_length`, shifted by 5 and shortened by 5 when the
section syntax indicator is set; returns `data[offset : offset + data_len]`.
Python's slice clamps, and a negative `data_len` (possible only when
`section_length < 5` on an extended section) yields `[]`, exactly as
`Nat` subtraction followed by `take` does. -/
def get_data (data : List Nat) : List Nat :=
  let sl := get_section_length data
  if get_section_syntax_indicator data then
    ((data.drop 8).take (sl - 5))
  else
    ((data.drop 3).take sl)

/-! ## Builder setters (`section_builder.py`) -/

/-- `create_section_data_block(data_length)`: a zeroed list. -/
def create_section_data_block (data_length : Nat) : List Nat :=
  List.replicate data_length 0

/-- `set_table_id(data, table_id): data[0] = table_id` (no masking). -/
def set_table_id (data : List Nat) (table_id : Nat) : List Nat :=
  data.set 0 table_id

/-- `set_section_syntax_indicator(data, indicator)`: clear bit 7 of byte 1,
then set it when the indicator is true. -/
def set_section_syntax_indicator (data : List Nat) (indicator : Bool) : List Nat :=
  let d1 := data.getD 1 0 &&& 0x7f
  data.set 1 (if indicator then d1 ||| 0x80 else d1)

/-- `set_private_indicator(data, indicator)`: clear bit 6 of byte 1, then set
it when the indicator is true. -/
def set_private_indicator (data : List Nat) (indicator : Bool) : List Nat :=
  let d1 := data.getD 1 0 &&& 0xbf
  data.set 1 (if indicator then d1 ||| 0x40 else d1)

/-- `set_section_length(data, section_length)`: clear the low nibble of byte 1
and all of byte 2, then write `(section_length & 0x0f00) >> 8` into byte 1 and
`section_length & 0x00ff` into byte 2. -/
def set_section_length (data : List Nat) (section_length : Nat) : List Nat :=
  let d1 := (data.getD 1 0 &&& 0xf0) ||| ((section_length &&& 0x0f00) >>> 8)
  let d2 := section_length &&& 0x00ff
  (data.set 1 d1).set 2 d2

/-- `set_table_id_extension(data, table_id_extension)`: bytes 3 and 4. -/
def set_table_id_ext (data : List Nat) (tide : Nat) : List Nat :=
  ((data.set 3 ((tide &&& 0xff00) >>> 8)).set 4 (tide &&& 0x00ff))

/-- `set_version_number(data, version)`: `data[5] &= 0b11000001` then
`data[5] |= (version << 1) & 0b00111110`. -/
def set_version_number (data : List Nat) (version : Nat) : List Nat :=
  data.set 5 ((data.getD 5 0 &&& 0xc1) ||| ((version <<< 1) &&& 0x3e))

/-- `set_current_next_indicator(data, indicator)`: clear bit 0 of byte 5,
then set it when the indicator is true. -/
def set_current_next_indicator (data : List Nat) (indicator : Bool) : List Nat :=
  let d5 := data.getD 5 0 &&& 0xfe
  data.set 5 (if indicator then d5 ||| 0x01 else d5)

/-- `set_section_number(data, section_number): data[6] = section_number & 0xff`. -/
def set_section_number (data : List Nat) (sn : Nat) : List Nat :=
  data.set 6 (sn &&& 0xff)

/-- `set_last_section_number(data, last_section_number)`: byte 7, masked. -/
def set_last_section_number (data : List Nat) (lsn : Nat) : List Nat :=
  data.set 7 (lsn &&& 0xff)

/-- `set_data(data, payload, offset)`: `for i in range(offset, len(data)):
data[i] = payload[j]; j += 1`.  The loop overwrites every slot from `offset`
to the end of `data` with consecutive payload bytes, so the result is
`data.take offset ++ payload.take (data.length - offset)`; it raises
`IndexError` (modelled `none`) when the payload is shorter than
`data.length - offset`. -/
def set_data (data payload : List Nat) (offset : Nat) : Option (List Nat) :=
  if data.length - offset ≤ payload.length then
    some (data.take offset ++ payload.take (data.length - offset))
  else
    none

/-- The `build` operation of spec §4.3, composed from the source's writers
(`section_builder.py` exposes the individual writers; this composition
follows the order of the spec and of the module's own unit tests):
allocate `section_length + 3` zeroed bytes, write the common-header
fields, then — when the section syntax indicator is set — the
extended-header fields and the payload (which includes the CRC bytes) at
offset 8, otherwise the payload at offset 3. -/
def build (tid : Nat) (ssi priv : Bool) (sl tide ver : Nat) (cni : Bool)
    (sn lsn : Nat) (payload : List Nat) : Option (List Nat) :=
  let data := create_section_data_block (sl + 3)
  let data := set_table_id data tid
  let data := set_section_syntax_indicator data ssi
  let data := set_private_indicator data priv
  let data := set_section_length data sl
  if ssi then
    let data := set_table_id_ext data tide
    let data := set_version_number data ver
    let data := set_current_next_indicator data cni
    let data := set_section_number data sn
    let data := set_last_section_number data lsn
    set_data data payload 8
  else
    set_data data payload 3

/-! ## The `Section` class (`section.py`) -/

/-- State of a `Section` object.  `Option` fields model Python attributes
that may not have been assigned yet (reading them raises `AttributeError`)
or that hold `None`.  `data_cache = none` models both the initial `None`
and the `del self.data_cache` performed on completion (the distinction is
unobservable: every later read happens behind the same guards). -/
structure Section where
  table_id : Option Nat := none
  complete : Bool := false
  header : Bool := false
  extended_header : Bool := false
  data_cache : Option (List Nat) := none
  section_syntax_indicator : Option Bool := none
  private_indicator : Option Bool := none
  section_length : Option Nat := none
  length : Option Nat := none
  table_id_extension : Option Nat := none
  version : Option Nat := none
  current_next_indicator : Option Bool := none
  section_number : Option Nat := none
  last_section_number : Option Nat := none
  table_body : Option (List Nat) := none
  crc : Option Nat := none
deriving Repr, DecidableEq

/-- `Section.__init__` with `data=None`: all flags false, nothing parsed. -/
def Section.init : Section := {}

/-- `Section._get_header(data)`: on first call records table_id, the two
indicator bits, section_length and `length = section_length + 3`, and sets
the `header` flag; on later calls returns immediately.  (The Python return
value 3 is unused by `parse` and is dropped here.) -/
def Section.getHeader (s : Section) (data : List Nat) : Section :=
  if s.header then s
  else
    { s with
      table_id := some (get_table_id data)
      section_syntax_indicator := some (get_section_syntax_indicator data)
      private_indicator := some (get_private_indicator data)
      section_length := some (get_section_length data)
      length := some (get_section_length data + 3)
      header := true }

/-- `Section._get_extended_header(data)`: on first call records the five
extended-header fields and sets the `extended_header` flag. -/
def Section.getExtHeader (s : Section) (data : List Nat) : Section :=
  if s.extended_header then s
  else
    { s with
      table_id_extension := some (get_table_id_ext data)
      version := some (get_version_number data)
      current_next_indicator := some (get_current_next_indicator data)
      section_number := some (get_section_number data)
      last_section_number := some (get_last_section_number data)
      extended_header := true }

/-- `Section._parse_header(data)`: nothing below 3 bytes; the common header
at 3 bytes; the extended header only when the section syntax indicator is
set and at least 8 bytes are available.  (The returned offset is unused by
`parse` and dropped here.  After `_get_header` the
`section_syntax_indicator` attribute is always assigned, so the `getD`
never falls back to its default on any reachable state.) -/
def Section.parseHeader (s : Section) (data : List Nat) : Section :=
  if data.length < 3 then s
  else
    let s := s.getHeader data
    if s.section_syntax_indicator.getD false then
      if data.length - 3 < 5 then s
      else s.getExtHeader data
    else s

/-- The big-endian fold of `data[-4:]` performed by `Section._get_crc`:
`crc = c0 << 8; += c1; <<= 8; += c2; <<= 8; += c3`.  `none` models the
`IndexError` Python raises when fewer than 4 bytes are present. -/
def crcOf (data : List Nat) : Option Nat :=
  match data.drop (data.length - 4) with
  | [c0, c1, c2, c3] => some (((((c0 <<< 8) + c1) <<< 8) + c2) <<< 8 + c3)
  | _ => none

/-- `Section._get_crc(data)`: no-op unless complete with an extended header;
otherwise reads `data[-4:]` and folds the four bytes big-endian into `crc`. -/
def Section.getCrc (s : Section) (data : List Nat) : Option Section :=
  if !s.complete then some s
  else if !s.extended_header then some s
  else
    match crcOf data with
    | some c => some { s with crc := some c }
    | none => none

/-- The body of `Section.parse` once the `data` local is resolved: parse
the header; if at least `section_length + 3` bytes are available, slice
`table_body`, mark the section complete, extract the CRC and delete the
cache.  Reading `self.section_length` with the header still missing would
raise (`none`); that read is guarded by `if not self.header: return`. -/
def Section.parseOn (s : Section) (data : List Nat) : Option Section :=
  let s := s.parseHeader data
  if !s.header then some s
  else
    match s.section_length with
    | none => none
    | some sl =>
      if sl + 3 ≤ data.length then
        let tb := (data.drop 3).take sl
        let s := { s with table_body := some tb, complete := true }
        match s.getCrc tb with
        | none => none
        | some s => some { s with data_cache := none }
      else some s

/-- `Section.parse(data)`: with a truthy argument, replaces the cache by a
copy of the argument and parses it; with `None` (or an empty, hence falsy,
list) parses the cache instead — raising `TypeError` (`none`, from
`len(None)` in `_parse_header`) if the cache is still `None`. -/
def Section.parse : Section → Option (List Nat) → Option Section
  | s, some d =>
    if d.isEmpty then
      match s.data_cache with
      | none => none
      | some data => s.parseOn data
    else ({ s with data_cache := some d }).parseOn d
  | s, none =>
    match s.data_cache with
    | none => none
    | some data => s.parseOn data

/-- `Section.add_data(data)`.  Returns `none` when the Python call raises;
otherwise `some (s', r)` where `r` is the Python return value (`none` for
`return` without a value, `some n` for an integer).

* complete → plain `return` (value `None`);
* falsy cache (still `None`; the source never stores an empty list) →
  `self.parse(data); return self.length` — the second line raises
  `AttributeError` whenever the header could not be parsed (first chunk
  shorter than 3 bytes);
* otherwise the incremental path.  In the `not self.header` sub-branch the
  cache always holds fewer than 3 bytes on every reachable state, so
  `3 - len(cache)` matches `Nat` subtraction; likewise the cache never
  exceeds `section_length + 3` bytes, so `missing_data_len` is never
  negative.  Reading `self.section_length` or `self.data_cache` after the
  sub-branch raises (`none`) when the header is still missing or the inner
  `parse` completed the section and deleted the cache. -/
def Section.add_data (s : Section) (chunk : List Nat) : Option (Section × Option Nat) :=
  if s.complete then some (s, none)
  else if s.data_cache = none ∨ s.data_cache = some [] then
    match s.parse (some chunk) with
    | none => none
    | some s' =>
      match s'.length with
      | none => none
      | some l => some (s', some l)
  else
    match s.data_cache with
    | none => none
    | some cache =>
      let datalen := chunk.length
      let step : Option (Section × List Nat × Nat) :=
        if !s.header then
          let missing_header_len := 3 - cache.length
          let s := { s with data_cache := some (cache ++ chunk.take missing_header_len) }
          match s.parse none with
          | none => none
          | some s' => some (s', chunk.drop missing_header_len, missing_header_len)
        else some (s, chunk, 0)
      match step with
      | none => none
      | some (s, data, extra_len) =>
        match s.section_length, s.data_cache with
        | some sl, some cache =>
          let missing_data_len := (sl + 3) - cache.length
          let cache' := cache ++ data.take missing_data_len
          let s := { s with data_cache := some cache' }
          let sF : Option Section :=
            if cache'.length = sl + 3 then s.parse none else some s
          match sF with
          | none => none
          | some sF => some (sF, some (min datalen (missing_data_len + extra_len)))
        | _, _ => none

/-- Feed a list of chunks in order through `add_data`, propagating any
raised exception and discarding the return values. -/
def feedList (s : Section) : List (List Nat) → Option Section
  | [] => some s
  | c :: cs =>
    match s.add_data c with
    | none => none
    | some (s', _) => feedList s' cs

/-! ## The PAT decoder (`pat.py`) -/

/-- Python-dict insertion (`programs[prog] = pid`): replace the value when
the key is present, append otherwise. -/
def dictInsert : List (Nat × Nat) → Nat → Nat → List (Nat × Nat)
  | [], k, v => [(k, v)]
  | (k', v') :: rest, k, v =>
    if k' = k then (k', v) :: rest else (k', v') :: dictInsert rest k v

/-- The `while table_entries > 0` loop of `get_program_map`: read the 4-byte
entry at `offset`, decode `prog = (e0 << 8) + e1` and
`pid = ((e2 & 0b00011111) << 8) + e3`, insert it unless `prog == 0`, then
advance by 4.  Every offset visited satisfies `offset + 4 ≤ data.length`
at the call sites in this file, so the defaulted reads stay in range. -/
def patLoop (data : List Nat) : Nat → Nat → List (Nat × Nat) → List (Nat × Nat)
  | _, 0, programs => programs
  | offset, n + 1, programs =>
    let entry := (data.drop offset).take 4
    let prog := (entry.getD 0 0 <<< 8) + entry.getD 1 0
    let pid := ((entry.getD 2 0 &&& 0x1f) <<< 8) + entry.getD 3 0
    let programs := if prog ≠ 0 then dictInsert programs prog pid else programs
    patLoop data (offset + 4) n programs

/-- `get_program_map(data)`: `table_entries = (len(data) - 4) / 4` with
Python-2 floor division — negative for `len(data) < 4`, in which case the
loop body never runs, exactly as the `Nat` subtraction/division here. -/
def get_program_map (data : List Nat) : List (Nat × Nat) :=
  patLoop data 0 ((data.length - 4) / 4) []

/-- Entry reader in the words of spec §4.4: read consecutive 4-byte entries
from offset 0 — `program_number = (e0 << 8) | e1`,
`pid = ((e2 & 0x1F) << 8) | e3` — continuing until fewer than 4 bytes
remain, filtering out `program_number == 0`.  Used to state what
`get_program_map` computes on which byte range. -/
def patEntriesSpec : List Nat → List (Nat × Nat) → List (Nat × Nat)
  | e0 :: e1 :: e2 :: e3 :: rest, programs =>
    let prog := (e0 <<< 8) + e1
    let pid := ((e2 &&& 0x1f) <<< 8) + e3
    patEntriesSpec rest (if prog ≠ 0 then dictInsert programs prog pid else programs)
  | _, programs => programs

/-- State of a `Pat` object: the underlying `Section` state plus the two
PAT-specific attributes. -/
structure Pat where
  sec : Section
  transport_stream_id : Option Nat := none
  table : Option (List (Nat × Nat)) := none
deriving Repr, DecidableEq

/-- `Pat.parse(data)`: `super().parse(data)` followed by
`self.transport_stream_id = self.table_id_extension` — which raises
`AttributeError` (`none`) whenever the extended header has not been parsed —
and, once complete, `self.table = get_program_map(self.table_body[5:])`
(the `payload` local is assigned and deleted again). -/
def Pat.parse (p : Pat) (dataArg : Option (List Nat)) : Option Pat :=
  match p.sec.parse dataArg with
  | none => none
  | some s =>
    match s.table_id_extension with
    | none => none
    | some tide =>
      if s.complete then
        match s.table_body with
        | none => none
        | some tb => some { sec := s, transport_stream_id := some tide,
                            table := some (get_program_map (tb.drop 5)) }
      else some { p with sec := s, transport_stream_id := some tide }

/-! ## Assembler state characterizations

These definitions do not translate source code; they are explicit
descriptions of the reachable `Section` states, proved below to coincide
with what `add_data` computes. -/

/-- The state produced by `_get_header` on a fresh section, reading wire
bytes `w`. -/
def headerSection (w : List Nat) : Section :=
  { table_id := some (get_table_id w)
    section_syntax_indicator := some (get_section_syntax_indicator w)
    private_indicator := some (get_private_indicator w)
    section_length := some (get_section_length w)
    length := some (get_section_length w + 3)
    header := true }

/-- Overlay of the extended-header fields of wire bytes `w` on a state. -/
def withExtHeader (w : List Nat) (s : Section) : Section :=
  { s with
    table_id_extension := some (get_table_id_ext w)
    version := some (get_version_number w)
    current_next_indicator := some (get_current_next_indicator w)
    section_number := some (get_section_number w)
    last_section_number := some (get_last_section_number w)
    extended_header := true }

/-- Headered state (no cache recorded): the common-header fields of `w`,
plus the extended-header fields when `e` is set. -/
def mHdr (w : List Nat) (e : Bool) : Section :=
  if e then withExtHeader w (headerSection w) else headerSection w

/-- The assembler state after buffering the first `k` bytes of wire `w`
without completing; `e` records whether the extended header has been
decoded (it is decoded early only when the first chunk already held 8
bytes). -/
def Mid (w : List Nat) (e : Bool) (k : Nat) : Section :=
  { mHdr w e with data_cache := some (w.take k) }

/-- The completed assembler state for wire `w`. -/
def Final (w : List Nat) : Section :=
  let sl := get_section_length w
  let ext := get_section_syntax_indicator w && decide (5 ≤ sl)
  let tb := (w.drop 3).take sl
  { mHdr w ext with table_body := some tb, complete := true,
                    crc := if ext then crcOf tb else none }

/-- A byte sequence forming exactly one complete section on the wire:
its length is the decoded `section_length` plus the 3 header bytes. -/
def Wire (w : List Nat) : Prop :=
  w.length = get_section_length w + 3

/-- `Pat.__init__(data)`: `super().__init__(data)` runs `Section.__init__`,
which calls `self.parse(data)` — dispatching to `Pat.parse` — only when
`data` is truthy; then `self.transport_stream_id = self.table_id_extension`
raises `AttributeError` (`none`) when the extended header was never parsed,
which is always the case for `Pat()` / `Pat(None)` / `Pat([])`. -/
def mkPat (dataArg : Option (List Nat)) : Option Pat :=
  let base : Pat := { sec := Section.init }
  let afterInit : Option Pat :=
    match dataArg with
    | some d => if d.isEmpty then some base else base.parse (some d)
    | none => some base
  match afterInit with
  | none => none
  | some p =>
    match p.sec.table_id_extension with
    | none => none
    | some tide => some { p with transport_stream_id := some tide }

end Mpeg2Psi

/-! ## Helper lemmas -/

namespace Mpeg2Psi

lemma getD_take_of_lt (l : List Nat) {i k : Nat} (h : i < k) :
    (l.take k).getD i 0 = l.getD i 0 := by
  simp [List.getD_eq_getElem?_getD, List.getElem?_take_of_lt h]

lemma take_ne_nil_of_le {w : List Nat} {k : Nat} (h3 : 3 ≤ k) (hk : k ≤ w.length) :
    w.take k ≠ [] := by
  intro h
  have := congrArg List.length h
  rw [List.length_take] at this
  simp only [List.length_nil] at this
  omega

lemma headerGetters_take (w : List Nat) {k : Nat} (h3 : 3 ≤ k) :
    get_table_id (w.take k) = get_table_id w ∧
    get_section_syntax_indicator (w.take k) = get_section_syntax_indicator w ∧
    get_private_indicator (w.take k) = get_private_indicator w ∧
    get_section_length (w.take k) = get_section_length w := by
  refine ⟨?_, ?_, ?_, ?_⟩ <;>
    simp only [get_table_id, get_section_syntax_indicator, get_private_indicator,
      get_section_length, getD_take_of_lt _ (show (0:Nat) < k by omega),
      getD_take_of_lt _ (show (1:Nat) < k by omega),
      getD_take_of_lt _ (show (2:Nat) < k by omega)]

lemma extGetters_take (w : List Nat) {k : Nat} (h8 : 8 ≤ k) :
    get_table_id_ext (w.take k) = get_table_id_ext w ∧
    get_version_number (w.take k) = get_version_number w ∧
    get_current_next_indicator (w.take k) = get_current_next_indicator w ∧
    get_section_number (w.take k) = get_section_number w ∧
    get_last_section_number (w.take k) = get_last_section_number w := by
  refine ⟨?_, ?_, ?_, ?_, ?_⟩ <;>
    simp only [get_table_id_ext, get_version_number, get_current_next_indicator,
      get_section_number, get_last_section_number,
      getD_take_of_lt _ (show (3:Nat) < k by omega),
      getD_take_of_lt _ (show (4:Nat) < k by omega),
      getD_take_of_lt _ (show (5:Nat) < k by omega),
      getD_take_of_lt _ (show (6:Nat) < k by omega),
      getD_take_of_lt _ (show (7:Nat) < k by omega)]

@[simp] lemma mHdr_header (w : List Nat) (e : Bool) : (mHdr w e).header = true := by
  cases e <;> rfl

@[simp] lemma mHdr_complete (w : List Nat) (e : Bool) : (mHdr w e).complete = false := by
  cases e <;> rfl

@[simp] lemma mHdr_extended (w : List Nat) (e : Bool) : (mHdr w e).extended_header = e := by
  cases e <;> rfl

@[simp] lemma mHdr_ssi (w : List Nat) (e : Bool) :
    (mHdr w e).section_syntax_indicator = some (get_section_syntax_indicator w) := by
  cases e <;> rfl

@[simp] lemma mHdr_section_length (w : List Nat) (e : Bool) :
    (mHdr w e).section_length = some (get_section_length w) := by
  cases e <;> rfl

@[simp] lemma mHdr_length (w : List Nat) (e : Bool) :
    (mHdr w e).length = some (get_section_length w + 3) := by
  cases e <;> rfl

@[simp] lemma mHdr_data_cache (w : List Nat) (e : Bool) :
    (mHdr w e).data_cache = none := by
  cases e <;> rfl

@[simp] lemma mHdr_table_body (w : List Nat) (e : Bool) :
    (mHdr w e).table_body = none := by
  cases e <;> rfl

@[simp] lemma mHdr_crc (w : List Nat) (e : Bool) : (mHdr w e).crc = none := by
  cases e <;> rfl

lemma exists_four (l : List Nat) (h : l.length = 4) : ∃ a b c d, l = [a, b, c, d] := by
  rcases l with _ | ⟨a, _ | ⟨b, _ | ⟨c, _ | ⟨d, _ | ⟨e, t⟩⟩⟩⟩⟩ <;>
    first
      | exact ⟨a, b, c, d, rfl⟩
      | (simp only [List.length_cons, List.length_nil] at h; omega)

lemma crcOf_isSome (data : List Nat) (h : 4 ≤ data.length) : ∃ c, crcOf data = some c := by
  have h4 : (data.drop (data.length - 4)).length = 4 := by
    simp [List.length_drop]; omega
  obtain ⟨a, b, c, d, hl⟩ := exists_four _ h4
  refine ⟨((((a <<< 8) + b) <<< 8) + c) <<< 8 + d, ?_⟩
  unfold crcOf
  rw [hl]

lemma parseHeader_fresh (w : List Nat) (k : Nat) (c : Option (List Nat))
    (h3 : 3 ≤ k) (hk : k ≤ w.length) :
    ({ Section.init with data_cache := c } : Section).parseHeader (w.take k) =
      { mHdr w (get_section_syntax_indicator w && decide (8 ≤ k)) with data_cache := c } := by
  have hlen : (w.take k).length = k := by rw [List.length_take]; omega
  obtain ⟨g0, g1, g2, g3⟩ := headerGetters_take w h3
  simp only [Section.parseHeader, Section.getHeader, Section.getExtHeader, Section.init, hlen]
  rw [if_neg (by omega : ¬ k < 3)]
  by_cases hssi : get_section_syntax_indicator w
  · by_cases h8 : 8 ≤ k
    · obtain ⟨e0, e1, e2, e3, e4⟩ := extGetters_take w h8
      simp [g0, g1, g2, g3, e0, e1, e2, e3, e4, hssi, h8,
        (show ¬ k - 3 < 5 by omega), mHdr, withExtHeader, headerSection]
    · simp [g0, g1, g2, g3, hssi, (show k - 3 < 5 by omega),
        (show ¬ 8 ≤ k by omega), mHdr, withExtHeader, headerSection]
  · simp [g0, g1, g2, g3, hssi, mHdr, withExtHeader, headerSection]

lemma parseOn_fresh (w : List Nat) (k : Nat) (hw : Wire w) (h3 : 3 ≤ k)
    (hk : k ≤ get_section_length w + 3) :
    ({ Section.init with data_cache := some (w.take k) } : Section).parseOn (w.take k) =
      some (if k = get_section_length w + 3 then Final w
            else Mid w (get_section_syntax_indicator w && decide (8 ≤ k)) k) := by
  have hwl : w.length = get_section_length w + 3 := hw
  have hlen : (w.take k).length = k := by rw [List.length_take]; omega
  unfold Section.parseOn
  rw [parseHeader_fresh w k _ h3 (by omega)]
  by_cases hkf : k = get_section_length w + 3
  · have htk : w.take k = w := by rw [hkf, ← hwl]; exact List.take_length w
    have h8k : (8 ≤ k) = (5 ≤ get_section_length w) := by
      apply propext; constructor <;> (intro; omega)
    simp only [hlen, htk, h8k]
    simp only [mHdr_header, Bool.not_true, if_neg (by simp : ¬ (false = true)),
      mHdr_section_length]
    rw [if_pos (by omega : get_section_length w + 3 ≤ w.length)]
    rw [if_pos hkf]
    cases hxt : get_section_syntax_indicator w && decide (5 ≤ get_section_length w) with
    | false =>
      simp [Section.getCrc, hxt, Final, Mid]
    | true =>
      have h5 : 5 ≤ get_section_length w := by
        have := (Bool.and_eq_true _ _).mp hxt
        exact of_decide_eq_true this.2
      have h4 : 4 ≤ ((w.drop 3).take (get_section_length w)).length := by
        rw [List.length_take, List.length_drop]; omega
      obtain ⟨cv, hcv⟩ := crcOf_isSome _ h4
      simp [Section.getCrc, hxt, hcv, Final, Mid]
  · simp only [hlen]
    simp only [mHdr_header, Bool.not_true, if_neg (by simp : ¬ (false = true)),
      mHdr_section_length]
    rw [if_neg (by omega : ¬ get_section_length w + 3 ≤ k)]
    rw [if_neg hkf]
    simp [Mid]

lemma parseHeader_mid (w : List Nat) (e : Bool) (k : Nat) (hw : Wire w)
    (he : e = true → get_section_syntax_indicator w = true ∧ 5 ≤ get_section_length w) :
    (Mid w e k).parseHeader w =
      Mid w (get_section_syntax_indicator w && decide (5 ≤ get_section_length w)) k := by
  have hwl : w.length = get_section_length w + 3 := hw
  have hd35 : (w.length - 3 < 5) = (get_section_length w < 5) := by
    apply propext; constructor <;> (intro; omega)
  unfold Section.parseHeader
  rw [if_neg (by omega : ¬ w.length < 3)]
  have hgh : (Mid w e k).getHeader w = Mid w e k := by
    unfold Section.getHeader
    rw [if_pos]
    simp [Mid]
  rw [hgh]
  cases e with
  | true =>
    obtain ⟨hssi, h5⟩ := he rfl
    simp [Section.getExtHeader, Mid, hssi, hd35, h5,
      (show ¬ get_section_length w < 5 by omega)]
  | false =>
    by_cases hssi : get_section_syntax_indicator w
    · by_cases h5 : 5 ≤ get_section_length w
      · simp [Section.getExtHeader, Mid, mHdr, withExtHeader, headerSection,
          hssi, h5, hd35, (show ¬ get_section_length w < 5 by omega)]
      · simp [Mid, hssi, hd35, (show get_section_length w < 5 by omega),
          (show ¬ 5 ≤ get_section_length w from h5)]
    · simp [Mid, hssi]

lemma parseOn_mid_full (w : List Nat) (e : Bool) (hw : Wire w)
    (he : e = true → get_section_syntax_indicator w = true ∧ 5 ≤ get_section_length w) :
    (Mid w e (get_section_length w + 3)).parseOn w = some (Final w) := by
  have hwl : w.length = get_section_length w + 3 := hw
  unfold Section.parseOn
  rw [parseHeader_mid w e _ hw he]
  simp only [Mid, mHdr_header, Bool.not_true, if_neg (by simp : ¬ (false = true)),
    mHdr_section_length]
  rw [if_pos (by omega : get_section_length w + 3 ≤ w.length)]
  cases hxt : get_section_syntax_indicator w && decide (5 ≤ get_section_length w) with
  | false =>
    simp [Section.getCrc, hxt, Final, Mid]
  | true =>
    have h5 : 5 ≤ get_section_length w := by
      have := (Bool.and_eq_true _ _).mp hxt
      exact of_decide_eq_true this.2
    have h4 : 4 ≤ ((w.drop 3).take (get_section_length w)).length := by
      rw [List.length_take, List.length_drop]; omega
    obtain ⟨cv, hcv⟩ := crcOf_isSome _ h4
    simp [Section.getCrc, hxt, hcv, Final, Mid]

@[simp] lemma mid_header (w : List Nat) (e : Bool) (k : Nat) : (Mid w e k).header = true := by
  simp [Mid]

@[simp] lemma mid_complete (w : List Nat) (e : Bool) (k : Nat) : (Mid w e k).complete = false := by
  simp [Mid]

@[simp] lemma mid_section_length (w : List Nat) (e : Bool) (k : Nat) :
    (Mid w e k).section_length = some (get_section_length w) := by
  simp [Mid]

@[simp] lemma mid_data_cache (w : List Nat) (e : Bool) (k : Nat) :
    (Mid w e k).data_cache = some (w.take k) := by
  simp [Mid]

@[simp] lemma mid_length (w : List Nat) (e : Bool) (k : Nat) :
    (Mid w e k).length = some (get_section_length w + 3) := by
  simp [Mid]

lemma update_cache_mid (w : List Nat) (e : Bool) (k j : Nat) :
    ({ table_id := (Mid w e k).table_id, complete := (Mid w e k).complete, header := true,
       extended_header := (Mid w e k).extended_header, data_cache := some (w.take j),
       section_syntax_indicator := (Mid w e k).section_syntax_indicator,
       private_indicator := (Mid w e k).private_indicator,
       section_length := some (get_section_length w),
       length := (Mid w e k).length, table_id_extension := (Mid w e k).table_id_extension,
       version := (Mid w e k).version,
       current_next_indicator := (Mid w e k).current_next_indicator,
       section_number := (Mid w e k).section_number,
       last_section_number := (Mid w e k).last_section_number,
       table_body := (Mid w e k).table_body, crc := (Mid w e k).crc } : Section) =
      Mid w e j := by
  cases e <;> rfl

lemma parse_none_mid_full (w : List Nat) (e : Bool) (hw : Wire w)
    (he : e = true → get_section_syntax_indicator w = true ∧ 5 ≤ get_section_length w) :
    (Mid w e (get_section_length w + 3)).parse none = some (Final w) := by
  have htw : w.take (get_section_length w + 3) = w := by
    rw [← hw]; exact List.take_length w
  simp only [Section.parse, mid_data_cache, htw]
  exact parseOn_mid_full w e hw he

lemma addData_complete (s : Section) (c : List Nat) (h : s.complete = true) :
    s.add_data c = some (s, none) := by
  unfold Section.add_data
  rw [if_pos h]

lemma length_final (w : List Nat) :
    (Final w).length = some (get_section_length w + 3) := by
  simp [Final]

lemma length_mid (w : List Nat) (e : Bool) (k : Nat) :
    (Mid w e k).length = some (get_section_length w + 3) := by
  simp [Mid]

lemma addData_first (w : List Nat) (k : Nat) (hw : Wire w) (h3 : 3 ≤ k)
    (hk : k ≤ get_section_length w + 3) :
    Section.init.add_data (w.take k) =
      some (if k = get_section_length w + 3 then Final w
            else Mid w (get_section_syntax_indicator w && decide (8 ≤ k)) k,
            some (get_section_length w + 3)) := by
  have hwl : w.length = get_section_length w + 3 := hw
  have hne : (w.take k).isEmpty = false := by
    cases h : w.take k with
    | nil => exact absurd h (take_ne_nil_of_le h3 (by omega))
    | cons a t => rfl
  unfold Section.add_data
  rw [if_neg (by simp [Section.init] : ¬ Section.init.complete = true)]
  rw [if_pos (by simp [Section.init] :
    Section.init.data_cache = none ∨ Section.init.data_cache = some [])]
  simp only [Section.parse]
  rw [if_neg (by simp [hne] : ¬ (w.take k).isEmpty = true)]
  rw [parseOn_fresh w k hw h3 hk]
  by_cases hkf : k = get_section_length w + 3
  · simp [hkf, length_final]
  · simp [hkf, length_mid]

lemma addData_mid (w : List Nat) (e : Bool) (k : Nat) (c : List Nat) (hw : Wire w)
    (h3 : 3 ≤ k) (hk : k < get_section_length w + 3)
    (hc : c = (w.drop k).take c.length)
    (hm : k + c.length ≤ get_section_length w + 3)
    (he : e = true → get_section_syntax_indicator w = true ∧ 5 ≤ get_section_length w) :
    (Mid w e k).add_data c =
      some (if k + c.length = get_section_length w + 3 then Final w
            else Mid w e (k + c.length),
            some c.length) := by
  have hwl : w.length = get_section_length w + 3 := hw
  have hcl : (w.take k).length = k := by rw [List.length_take]; omega
  have hctake : c.take (get_section_length w + 3 - k) = c :=
    List.take_of_length_le (by omega)
  have htkc : w.take k ++ c = w.take (k + c.length) := by
    rw [List.take_add, ← hc]
  have hclen : (w.take (k + c.length)).length = k + c.length := by
    rw [List.length_take]; omega
  unfold Section.add_data
  rw [if_neg (by simp : ¬ (Mid w e k).complete = true)]
  rw [if_neg (by
    simp only [mid_data_cache]
    push_neg
    refine ⟨by simp, ?_⟩
    simp [take_ne_nil_of_le h3 (by omega : k ≤ w.length)])]
  simp only [mid_data_cache, mid_header, mid_section_length, Bool.not_true,
    Bool.false_eq_true, if_false, hcl, hctake, htkc, hclen]
  by_cases hkc : k + c.length = get_section_length w + 3
  · rw [if_pos hkc, hkc, update_cache_mid,
      parse_none_mid_full w e hw he, if_pos rfl]
    simp only [Option.some.injEq, Prod.mk.injEq, true_and]
    omega
  · rw [if_neg hkc, update_cache_mid, if_neg hkc]
    simp only [Option.some.injEq, Prod.mk.injEq, true_and]
    omega

lemma final_complete (w : List Nat) : (Final w).complete = true := by
  simp [Final]

lemma feed_from (w : List Nat) (hw : Wire w) :
    ∀ (cs : List (List Nat)) (k : Nat) (e : Bool),
      3 ≤ k → k ≤ get_section_length w + 3 →
      (e = true → get_section_syntax_indicator w = true ∧ 5 ≤ get_section_length w) →
      cs.flatten = w.drop k →
      feedList (if k = get_section_length w + 3 then Final w else Mid w e k) cs =
        some (Final w) := by
  intro cs
  induction cs with
  | nil =>
    intro k e h3 hk he hj
    simp only [List.flatten_nil] at hj
    have hlen := congrArg List.length hj
    simp only [List.length_nil, List.length_drop] at hlen
    have hwl : w.length = get_section_length w + 3 := hw
    rw [if_pos (by omega)]
    rfl
  | cons c cs ih =>
    intro k e h3 hk he hj
    simp only [List.flatten_cons] at hj
    have hwl : w.length = get_section_length w + 3 := hw
    by_cases hkf : k = get_section_length w + 3
    · rw [if_pos hkf]
      have hd : w.drop k = [] := by
        rw [hkf, ← hwl]; exact List.drop_length w
      rw [hd] at hj
      obtain ⟨hc0, hcs0⟩ := List.append_eq_nil.mp hj
      simp only [feedList]
      rw [addData_complete _ _ (final_complete w)]
      have := ih k e h3 hk he (by rw [hcs0, hd])
      rw [if_pos hkf] at this
      exact this
    · rw [if_neg hkf]
      have hc : c = (w.drop k).take c.length := by rw [← hj, List.take_left]
      have hcs : cs.flatten = w.drop (k + c.length) := by
        have h1 : (c ++ cs.flatten).drop c.length = cs.flatten := List.drop_left _ _
        rw [hj] at h1
        rw [← h1, List.drop_drop]
      have hm : k + c.length ≤ get_section_length w + 3 := by
        have hlen := congrArg List.length hj
        simp only [List.length_append, List.length_drop] at hlen
        omega
      simp only [feedList]
      rw [addData_mid w e k c hw h3 (by omega) hc hm he]
      exact ih (k + c.length) e (by omega) hm he hcs

lemma assemble_split (w : List Nat) (hw : Wire w) (c0 : List Nat) (cs : List (List Nat))
    (h3 : 3 ≤ c0.length) (hj : (c0 :: cs).flatten = w) :
    feedList Section.init (c0 :: cs) = some (Final w) := by
  have hwl : w.length = get_section_length w + 3 := hw
  simp only [List.flatten_cons] at hj
  have hc0 : c0 = w.take c0.length := by rw [← hj, List.take_left]
  have hk : c0.length ≤ get_section_length w + 3 := by
    have hlen := congrArg List.length hj
    simp only [List.length_append] at hlen
    omega
  have hcs : cs.flatten = w.drop c0.length := by
    have h1 : (c0 ++ cs.flatten).drop c0.length = cs.flatten := List.drop_left _ _
    rw [hj] at h1
    exact h1.symm
  have he : (get_section_syntax_indicator w && decide (8 ≤ c0.length)) = true →
      get_section_syntax_indicator w = true ∧ 5 ≤ get_section_length w := by
    intro h
    obtain ⟨h1, h2⟩ := (Bool.and_eq_true _ _).mp h
    exact ⟨h1, by have := of_decide_eq_true h2; omega⟩
  simp only [feedList]
  rw [show Section.init.add_data c0 = Section.init.add_data (w.take c0.length) by rw [← hc0],
    addData_first w c0.length hw h3 hk]
  exact feed_from w hw cs c0.length _ h3 hk he hcs

lemma patLoop_shift (data : List Nat) :
    ∀ (n j : Nat) (acc : List (Nat × Nat)),
      patLoop data (j + 4) n acc = patLoop (data.drop 4) j n acc := by
  intro n
  induction n with
  | zero => intro j acc; rfl
  | succ n ih =>
    intro j acc
    simp only [patLoop]
    rw [List.drop_drop]
    have : j + 4 + 4 = (j + 4) + 4 := rfl
    rw [show (4 : Nat) + j = j + 4 from by omega]
    exact ih (j + 4) _

lemma patLoop_eq_spec : ∀ (n : Nat) (l : List Nat) (acc : List (Nat × Nat)),
    l.length / 4 = n → patLoop l 0 n acc = patEntriesSpec l acc := by
  intro n
  induction n with
  | zero =>
    intro l acc h
    rcases l with _ | ⟨a, _ | ⟨b, _ | ⟨c, _ | ⟨d, t⟩⟩⟩⟩ <;>
      first
        | rfl
        | (exfalso; simp only [List.length_cons] at h; omega)
  | succ n ih =>
    intro l acc h
    rcases l with _ | ⟨a, _ | ⟨b, _ | ⟨c, _ | ⟨d, t⟩⟩⟩⟩ <;>
      try (exfalso; simp only [List.length_nil, List.length_cons] at h; omega)
    have ht : t.length / 4 = n := by
      simp only [List.length_cons] at h
      omega
    simp only [patLoop, patEntriesSpec]
    rw [show (0 : Nat) + 4 = 0 + 4 from rfl]
    rw [patLoop_shift]
    simp only [List.drop_succ_cons, List.drop_zero]
    exact ih t _ ht


lemma patLoop_take (data : List Nat) :
    ∀ (n offset : Nat) (acc : List (Nat × Nat)) (m : Nat), offset + 4 * n ≤ m →
      patLoop data offset n acc = patLoop (data.take m) offset n acc := by
  intro n
  induction n with
  | zero => intro offset acc m h; rfl
  | succ n ih =>
    intro offset acc m h
    simp only [patLoop]
    have hdt : ((data.take m).drop offset).take 4 = (data.drop offset).take 4 := by
      rw [List.drop_take]
      rw [List.take_take]
      congr 1
      omega
    rw [hdt]
    exact ih (offset + 4) _ m (by omega)

lemma get_program_map_eq_spec (data : List Nat) :
    get_program_map data = patEntriesSpec (data.take (data.length - 4)) [] := by
  unfold get_program_map
  rw [patLoop_take data _ 0 [] (data.length - 4) (by
    have := Nat.div_mul_le_self (data.length - 4) 4
    omega)]
  apply patLoop_eq_spec
  rw [List.length_take]
  have := Nat.div_mul_le_self (data.length - 4) 4
  omega


lemma dictInsert_keys {l : List (Nat × Nat)} {k v : Nat} {q : Nat × Nat}
    (hq : q ∈ dictInsert l k v) : q ∈ l ∨ q.1 = k := by
  induction l with
  | nil =>
    simp only [dictInsert, List.mem_singleton] at hq
    right; rw [hq]
  | cons p rest ih =>
    simp only [dictInsert] at hq
    by_cases hpk : p.1 = k
    · rw [if_pos hpk] at hq
      rcases List.mem_cons.mp hq with h | h
      · right; rw [h]; exact hpk
      · left; exact List.mem_cons_of_mem _ h
    · rw [if_neg hpk] at hq
      rcases List.mem_cons.mp hq with h | h
      · left; rw [h]; exact List.mem_cons_self _ _
      · rcases ih h with h' | h'
        · left; exact List.mem_cons_of_mem _ h'
        · right; exact h'

lemma patLoop_no_zero_key (data : List Nat) :
    ∀ (n offset : Nat) (acc : List (Nat × Nat)),
      (∀ q ∈ acc, q.1 ≠ 0) → ∀ q ∈ patLoop data offset n acc, q.1 ≠ 0 := by
  intro n
  induction n with
  | zero => intro offset acc hacc q hq; exact hacc q hq
  | succ n ih =>
    intro offset acc hacc q hq
    simp only [patLoop] at hq
    refine ih (offset + 4) _ ?_ q hq
    intro r hr
    by_cases hz :
        (((data.drop offset).take 4).getD 0 0 <<< 8) + ((data.drop offset).take 4).getD 1 0 ≠ 0
    · rw [if_pos hz] at hr
      rcases dictInsert_keys hr with h | h
      · exact hacc r h
      · rw [h]; exact hz
    · rw [if_neg hz] at hr
      exact hacc r hr

lemma lookup_eq_none_of_no_key {l : List (Nat × Nat)} {a : Nat}
    (h : ∀ q ∈ l, q.1 ≠ a) : List.lookup a l = none := by
  induction l with
  | nil => rfl
  | cons p rest ih =>
    have hp : p.1 ≠ a := h p (List.mem_cons_self _ _)
    cases p with
    | mk k v =>
      simp only [List.lookup]
      rw [show (a == k) = false from beq_eq_false_iff_ne.mpr (by simpa [eq_comm] using hp)]
      exact ih fun q hq => h q (List.mem_cons_of_mem _ hq)

lemma parseHeader_headered (s : Section) (data : List Nat) (hh : s.header = true) :
    (s.parseHeader data).header = true ∧
    (s.parseHeader data).section_length = s.section_length ∧
    (s.parseHeader data).complete = s.complete ∧
    (s.parseHeader data).data_cache = s.data_cache := by
  unfold Section.parseHeader Section.getHeader Section.getExtHeader
  rw [if_pos hh]
  dsimp only
  repeat' split
  all_goals exact ⟨hh, rfl, rfl, rfl⟩

lemma parseOn_cache_none (s : Section) (data : List Nat) (sl : Nat)
    (hh : s.header = true) (hsl : s.section_length = some sl)
    (hlen : sl + 3 ≤ data.length) :
    ∀ s', s.parseOn data = some s' → s'.data_cache = none := by
  intro s' hps
  obtain ⟨p1, p2, _, _⟩ := parseHeader_headered s data hh
  unfold Section.parseOn at hps
  dsimp only at hps
  rw [p1] at hps
  simp only [Bool.not_true, Bool.false_eq_true, if_false] at hps
  rw [p2, hsl] at hps
  simp only [hlen, if_true] at hps
  split at hps
  · exact absurd hps (by simp)
  · simp only [Option.some.injEq] at hps
    rw [← hps]


lemma parse_none_cache_none (s2 : Section) (sl : Nat) (hh : s2.header = true)
    (hsl : s2.section_length = some sl)
    (hlen : ∀ d, s2.data_cache = some d → sl + 3 ≤ d.length) :
    ∀ s', s2.parse none = some s' → s'.data_cache = none := by
  intro s' hp
  simp only [Section.parse] at hp
  cases hd : s2.data_cache with
  | none => rw [hd] at hp; exact absurd hp (by simp)
  | some d =>
    rw [hd] at hp
    exact parseOn_cache_none s2 d sl hh hsl (hlen d hd) s' hp

lemma addData_headered (s : Section) (chunk cache : List Nat) (sl : Nat)
    (hcm : s.complete = false) (hh : s.header = true)
    (hc : s.data_cache = some cache) (hne : cache ≠ [])
    (hsl : s.section_length = some sl) :
    ∀ s' r, s.add_data chunk = some (s', some r) →
      r = min chunk.length ((sl + 3) - cache.length) ∧
      ∀ cache', s'.data_cache = some cache' →
        cache' = cache ++ chunk.take ((sl + 3) - cache.length) := by
  intro s' r had
  unfold Section.add_data at had
  rw [if_neg (by rw [hcm]; simp)] at had
  rw [if_neg (by rw [hc]; simp [hne])] at had
  rw [hc] at had
  simp only [hh, Bool.not_true, Bool.false_eq_true, if_false] at had
  simp only [hsl, hc] at had
  split at had
  · exact absurd had (by simp)
  · rename_i sF heq
    simp only [Option.some.injEq, Prod.mk.injEq] at had
    obtain ⟨hs', hr⟩ := had
    constructor
    · omega
    · intro cache' hq
      split at heq
      · rename_i hX
        have hcn : sF.data_cache = none := by
          refine parse_none_cache_none _ sl rfl rfl ?_ sF heq
          intro d hd
          simp only [Option.some.injEq] at hd
          rw [← hd]
          omega
        rw [← hs'] at hq
        rw [hcn] at hq
        exact absurd hq (by simp)
      · simp only [Option.some.injEq] at heq
        rw [← hs', ← heq] at hq
        simp only [Option.some.injEq] at hq
        exact hq.symm

lemma feedList_append (s : Section) (xs ys : List (List Nat)) :
    feedList s (xs ++ ys) = (feedList s xs).bind (fun s' => feedList s' ys) := by
  induction xs generalizing s with
  | nil => rfl
  | cons c cs ih =>
    simp only [List.cons_append, feedList]
    cases s.add_data c with
    | none => rfl
    | some p => exact ih p.1

lemma single_chunk_at (w : List Nat) (k : Nat) (hk : k < w.length) :
    (w.drop k).take 1 = [w.getD k 0] := by
  have h : w.drop k = w.getD k 0 :: w.drop (k + 1) := by
    rw [List.getD_eq_getElem?_getD, List.getElem?_eq_getElem hk]
    exact List.drop_eq_getElem_cons hk
  rw [h]
  rfl

lemma c5_aux (w : List Nat) (sl : Nat) (hsl : get_section_length w = sl)
    (hw : Wire w) (hssi : get_section_syntax_indicator w = true) (h5 : 5 ≤ sl) :
    ∀ t, 8 + t ≤ sl + 3 →
      feedList Section.init
          ([w.take 3, (w.drop 3).take 5] ++ ((w.drop 8).take t).map (fun b => [b])) =
        some (if 8 + t = sl + 3 then Final w else Mid w false (8 + t)) := by
  have hwl : w.length = get_section_length w + 3 := hw
  intro t
  induction t with
  | zero =>
    intro ht
    have hc1len : ((w.drop 3).take 5).length = 5 := by
      rw [List.length_take, List.length_drop]; omega
    simp only [List.take_zero, List.map_nil, List.append_nil, feedList]
    rw [addData_first w 3 hw (by omega) (by omega)]
    rw [if_neg (by omega : ¬ (3 = get_section_length w + 3))]
    rw [show (get_section_syntax_indicator w && decide (8 ≤ 3)) = false by
      rw [hssi]; rfl]
    dsimp only
    rw [addData_mid w false 3 ((w.drop 3).take 5) hw (by omega) (by omega)
      (by rw [hc1len]) (by rw [hc1len]; omega)
      (by intro h; exact absurd h (by simp))]
    dsimp only [feedList]
    rw [hc1len, hsl]
  | succ t ih =>
    intro ht
    have htl : t < (w.drop 8).length := by
      rw [List.length_drop]; omega
    have h1len : ((w.drop (8 + t)).take 1).length = 1 := by
      rw [List.length_take, List.length_drop]; omega
    have hsplit : ((w.drop 8).take (t + 1)).map (fun b => [b]) =
        ((w.drop 8).take t).map (fun b => [b]) ++ [[(w.drop 8).getD t 0]] := by
      rw [List.take_succ, List.getElem?_eq_getElem htl]
      simp [List.getD_eq_getElem?_getD, List.getElem?_eq_getElem htl]
    rw [hsplit, show ([w.take 3, (w.drop 3).take 5] ++
        (((w.drop 8).take t).map (fun b => [b]) ++ [[(w.drop 8).getD t 0]])) =
        (([w.take 3, (w.drop 3).take 5] ++ ((w.drop 8).take t).map (fun b => [b])) ++
          [[(w.drop 8).getD t 0]]) from by rw [List.append_assoc]]
    rw [feedList_append]
    rw [ih (by omega)]
    rw [if_neg (by omega : ¬ (8 + t = sl + 3))]
    have hbyte : (w.drop 8).getD t 0 = w.getD (8 + t) 0 := by
      rw [List.getD_eq_getElem?_getD, List.getD_eq_getElem?_getD, List.getElem?_drop]
    simp only [Option.some_bind, feedList, hbyte]
    rw [show ([w.getD (8 + t) 0]) = (w.drop (8 + t)).take 1 from
      (single_chunk_at w (8 + t) (by omega)).symm]
    rw [addData_mid w false (8 + t) ((w.drop (8 + t)).take 1) hw (by omega)
      (by omega) (by rw [h1len]) (by rw [h1len]; omega)
      (by intro h; exact absurd h (by simp))]
    dsimp only [feedList]
    rw [h1len, hsl, Nat.add_assoc]


/-- C5 (confirmed): feeding an extended section as its 3 header bytes, then
its 5 extended-header bytes, then one byte at a time, the assembler reports
complete exactly after the (section_length + 3)-th byte — at every earlier
prefix `complete` is false, and no byte beyond the last is needed. -/
theorem c5_boundary_complete (w : List Nat) (sl : Nat)
    (hsl : get_section_length w = sl) (hw : w.length = sl + 3)
    (hssi : get_section_syntax_indicator w = true) (h5 : 5 ≤ sl) :
    (∃ s, feedList Section.init [w.take 3] = some s ∧ s.complete = false) ∧
    ∀ i, 8 ≤ i → i ≤ sl + 3 →
      ∃ s, feedList Section.init
          ([w.take 3, (w.drop 3).take 5] ++
            ((w.drop 8).take (i - 8)).map (fun b => [b])) = some s ∧
        (s.complete = true ↔ i = sl + 3) := by
  have hwire : Wire w := by unfold Wire; omega
  constructor
  · have h0 := addData_first w 3 hwire (by omega) (by omega)
    rw [if_neg (by omega : ¬ (3 = get_section_length w + 3))] at h0
    refine ⟨Mid w (get_section_syntax_indicator w && decide (8 ≤ 3)) 3, ?_, ?_⟩
    · simp only [feedList, h0]
    · exact mid_complete _ _ _
  · intro i h8 hi
    have ha := c5_aux w sl hsl hwire hssi h5 (i - 8) (by omega)
    rw [show 8 + (i - 8) = i from by omega] at ha
    refine ⟨_, ha, ?_⟩
    by_cases hif : i = sl + 3
    · rw [if_pos hif]
      simp [final_complete, hif]
    · rw [if_neg hif]
      simp [mid_complete, hif]

/-- Witness for C5 at a concrete 12-byte extended section, checking the full
feed (i = 12 = section_length + 3) is complete. -/
theorem c5_witness :
    ∃ s, feedList Section.init
        ([([1, 128, 9, 18, 52, 21, 0, 1, 170, 187, 204, 221] : List Nat).take 3,
          (([1, 128, 9, 18, 52, 21, 0, 1, 170, 187, 204, 221] : List Nat).drop 3).take 5] ++
          ((([1, 128, 9, 18, 52, 21, 0, 1, 170, 187, 204, 221] : List Nat).drop 8).take
            (12 - 8)).map (fun b => [b])) = some s ∧
      (s.complete = true ↔ 12 = 9 + 3) :=
  (c5_boundary_complete [1, 128, 9, 18, 52, 21, 0, 1, 170, 187, 204, 221] 9
    (by decide) (by decide) (by decide) (by omega)).2 12 (by omega) (by omega)

/-- C3 (amended): on every feed call made while the assembler already holds
buffered data with the header resolved (every call after a successful first
call), the returned count never exceeds the chunk length, the count never
reaches past the section end (count + buffered ≤ section_length + 3), and
the buffer keeps only bytes of the current section.  The claim's assertion
about the *first* feed call is false: that call returns `self.length =
section_length + 3` regardless of the chunk (see the counterexample). -/
theorem c3_consumed_bound (s : Section) (chunk cache : List Nat) (sl : Nat)
    (hcm : s.complete = false) (hh : s.header = true)
    (hc : s.data_cache = some cache) (hne : cache ≠ [])
    (hsl : s.section_length = some sl) (hcl : cache.length ≤ sl + 3) :
    ∀ s' r, s.add_data chunk = some (s', some r) →
      r ≤ chunk.length ∧ r + cache.length ≤ sl + 3 ∧
      ∀ cache', s'.data_cache = some cache' →
        cache' = cache ++ chunk.take ((sl + 3) - cache.length) ∧
        cache'.length ≤ sl + 3 := by
  intro s' r had
  obtain ⟨h1, h2⟩ := addData_headered s chunk cache sl hcm hh hc hne hsl s' r had
  refine ⟨by omega, by omega, ?_⟩
  intro cache' hq
  have h3 := h2 cache' hq
  refine ⟨h3, ?_⟩
  rw [h3, List.length_append]
  have h4 := List.length_take_le ((sl + 3) - cache.length) chunk
  omega

/-- Witness for C3 at a concrete mid-assembly state fed a 5-byte chunk. -/
theorem c3_witness :
    5 ≤ ([18, 52, 21, 0, 1] : List Nat).length ∧
    5 + ([1, 128, 9] : List Nat).length ≤ 9 + 3 := by
  have h := c3_consumed_bound
    (Mid [1, 128, 9, 18, 52, 21, 0, 1, 170, 187, 204, 221] false 3)
    [18, 52, 21, 0, 1] [1, 128, 9] 9
    (by decide) (by decide) (by decide) (by decide) (by decide) (by decide)
    (Mid [1, 128, 9, 18, 52, 21, 0, 1, 170, 187, 204, 221] false 8) 5 (by decide)
  exact ⟨h.1, h.2.1⟩

/-- C3 counterexample: the very first feed call, given only the 3 header
bytes of a section with section_length = 1, returns 4 — more than the
3-byte chunk it received. -/
theorem c3_counterexample :
    ((Section.init.add_data [0, 0, 1]).bind (fun p => p.2)) = some 4 ∧
    ¬ (4 ≤ ([0, 0, 1] : List Nat).length) := by decide

/-- C7 (amended): once a section is complete, every further `add_data` call
leaves the state unchanged — but it executes a bare `return`, so the Python
return value is `None`, not the integer 0 the claim states. -/
theorem c7_complete_noop (s : Section) (chunk : List Nat) (h : s.complete = true) :
    s.add_data chunk = some (s, none) :=
  addData_complete s chunk h

/-- Witness for C7 on a concrete completed simple section. -/
theorem c7_witness :
    (Final [0, 0, 2, 171, 205]).add_data [9] =
      some (Final [0, 0, 2, 171, 205], none) :=
  c7_complete_noop (Final [0, 0, 2, 171, 205]) [9] (by decide)

/-- C7 counterexample: feeding a chunk to a completed section returns
Python `None` (`some none` after the successful call), not 0. -/
theorem c7_counterexample :
    ((Section.init.add_data [1, 128, 9, 18, 52, 21, 0, 1, 170, 187, 204, 221]).bind
        (fun p => p.1.add_data [85])).map (fun p => p.2) = some none ∧
    some (none : Option Nat) ≠ some (some 0) := by decide

/-- C4 (amended): for a complete extended section, `get_data` — the data
view handed to downstream decoders — strips the 5 extended-header bytes but
*includes* the trailing 4-byte checksum: its length is section_length - 5,
not section_length - 5 - 4 as claimed.  (The 4 checksum bytes are dropped
later, inside the table decoder `get_program_map`.) -/
theorem c4_payload_len (w : List Nat) (sl : Nat) (hsl : get_section_length w = sl)
    (hssi : get_section_syntax_indicator w = true) (hw : w.length = sl + 3)
    (h5 : 5 ≤ sl) :
    (get_data w).length = sl - 5 := by
  simp only [get_data, hssi, if_true, List.length_take, List.length_drop, hsl]
  omega

/-- Witness for C4 on a concrete 12-byte extended section. -/
theorem c4_witness :
    (get_data [1, 128, 9, 18, 52, 21, 0, 1, 170, 187, 204, 221]).length = 9 - 5 :=
  c4_payload_len [1, 128, 9, 18, 52, 21, 0, 1, 170, 187, 204, 221] 9
    (by decide) (by decide) (by decide) (by omega)

/-- C4 counterexample: a well-formed extended section with
section_length = 9 whose `get_data` view has 4 bytes, not 9 - 5 - 4 = 0. -/
theorem c4_counterexample :
    get_section_length [1, 128, 9, 18, 52, 21, 0, 1, 170, 187, 204, 221] = 9 ∧
    get_section_syntax_indicator [1, 128, 9, 18, 52, 21, 0, 1, 170, 187, 204, 221] = true ∧
    ([1, 128, 9, 18, 52, 21, 0, 1, 170, 187, 204, 221] : List Nat).length = 9 + 3 ∧
    (get_data [1, 128, 9, 18, 52, 21, 0, 1, 170, 187, 204, 221]).length = 4 ∧
    ¬ ((get_data [1, 128, 9, 18, 52, 21, 0, 1, 170, 187, 204, 221]).length = 9 - 5 - 4) := by
  decide

/-- C6 (amended): `get_program_map` expects the payload *with* the 4-byte
checksum still attached: it strips the final 4 bytes and then reads
consecutive 4-byte entries from offset 0 until fewer than 4 bytes of the
stripped prefix remain (`patEntriesSpec` is the claim's entry loop verbatim).
On a payload with the checksum already excluded — as the claim stipulates —
the final 4-byte entry would be discarded (see the counterexample). -/
theorem c6_entry_loop (data : List Nat) :
    get_program_map data = patEntriesSpec (data.take (data.length - 4)) [] :=
  get_program_map_eq_spec data

/-- C6 counterexample: an 8-byte checksum-free payload holding the entries
(1, 2) and (3, 4); the decoder treats the last 4 bytes as a checksum and
drops the (3, 4) entry, though the claim says every complete 4-byte entry
of the payload is processed. -/
theorem c6_counterexample :
    get_program_map [0, 1, 0, 2, 0, 3, 0, 4] = [(1, 2)] ∧
    List.lookup 3 (get_program_map [0, 1, 0, 2, 0, 3, 0, 4]) = none := by decide

/-- C8 (confirmed): program_number 0 never appears as a key of the program
map produced by `get_program_map`, for every payload. -/
theorem c8_zero_filtered (data : List Nat) :
    List.lookup 0 (get_program_map data) = none := by
  apply lookup_eq_none_of_no_key
  unfold get_program_map
  exact patLoop_no_zero_key data _ 0 []
    (by intro q h; exact absurd h (List.not_mem_nil q))

/-- C10 (confirmed): `Pat()` / `Pat(None)` / `Pat([])` raise
`AttributeError` (modelled `none`) because `Pat.__init__` reads
`table_id_extension`, which `Section.__init__` never assigns without data —
even though a bare `Section` supports the empty-then-feed lifecycle, as the
final conjunct shows on a concrete section. -/
theorem c10_pat_empty_init :
    mkPat none = none ∧ mkPat (some []) = none ∧
    Section.init.table_id_extension = none ∧
    (Section.init.add_data [0, 0, 2, 171, 205]).map (fun p => p.1.complete) =
      some true := by decide

/-- C1 (code bug): chunk-invariance fails because the first `add_data` call
crashes unless its chunk already holds the 3 header bytes: a 1-byte first
chunk raises `AttributeError` on `return self.length`, an empty first chunk
raises `TypeError` in `parse`; hence one-byte-chunk feeding yields no
section at all while the single-chunk feed completes.  (Splits whose first
chunk has at least 3 bytes do agree with the single-chunk feed — that is
proved as part of the round-trip theorem machinery, `assemble_split`.) -/
theorem c1_chunk_crash :
    Section.init.add_data [0] = none ∧
    Section.init.add_data [] = none ∧
    feedList Section.init ([0, 0, 2, 171, 205].map (fun b => [b])) = none ∧
    (feedList Section.init [[0, 0, 2, 171, 205]]).map (fun s => s.complete) =
      some true := by decide

lemma masked_write_preserves (x a b m : Nat) (ha : a &&& m = m) (hb : b &&& m = 0) :
    ((x &&& a) ||| b) &&& m = x &&& m := by
  rw [Nat.and_distrib_right, Nat.and_assoc, ha, hb, Nat.or_zero]

lemma masked_clear_preserves (x a m : Nat) (ha : a &&& m = m) :
    (x &&& a) &&& m = x &&& m := by
  rw [Nat.and_assoc, ha]

lemma getD_set_self (l : List Nat) (i v : Nat) (h : i < l.length) :
    (l.set i v).getD i 0 = v := by
  simp [List.getD_eq_getElem?_getD, List.getElem?_set_self h]

lemma getD_set_ne (l : List Nat) (i j v : Nat) (h : i ≠ j) :
    (l.set i v).getD j 0 = l.getD j 0 := by
  simp [List.getD_eq_getElem?_getD, List.getElem?_set_ne h]

lemma ssi_set_byte1 (data : List Nat) (ind : Bool) (h : 1 < data.length) :
    (set_section_syntax_indicator data ind).getD 1 0 =
      if ind then (data.getD 1 0 &&& 0x7f) ||| 0x80 else data.getD 1 0 &&& 0x7f := by
  unfold set_section_syntax_indicator
  cases ind <;> exact getD_set_self _ _ _ h

lemma priv_set_byte1 (data : List Nat) (ind : Bool) (h : 1 < data.length) :
    (set_private_indicator data ind).getD 1 0 =
      if ind then (data.getD 1 0 &&& 0xbf) ||| 0x40 else data.getD 1 0 &&& 0xbf := by
  unfold set_private_indicator
  cases ind <;> exact getD_set_self _ _ _ h


lemma ssi_byte1_bits (data : List Nat) (ind : Bool) (h : 1 < data.length) (m : Nat)
    (ha : 0x7f &&& m = m) (hb : 0x80 &&& m = 0) :
    (set_section_syntax_indicator data ind).getD 1 0 &&& m = data.getD 1 0 &&& m := by
  rw [ssi_set_byte1 data ind h]
  cases ind
  · exact masked_clear_preserves _ _ _ ha
  · exact masked_write_preserves _ _ _ _ ha hb

lemma priv_byte1_bits (data : List Nat) (ind : Bool) (h : 1 < data.length) (m : Nat)
    (ha : 0xbf &&& m = m) (hb : 0x40 &&& m = 0) :
    (set_private_indicator data ind).getD 1 0 &&& m = data.getD 1 0 &&& m := by
  rw [priv_set_byte1 data ind h]
  cases ind
  · exact masked_clear_preserves _ _ _ ha
  · exact masked_write_preserves _ _ _ _ ha hb

lemma priv_preserved_by_ssi (data : List Nat) (ind : Bool) (h : 1 < data.length) :
    get_private_indicator (set_section_syntax_indicator data ind) =
      get_private_indicator data := by
  unfold get_private_indicator
  rw [ssi_byte1_bits data ind h 0x40 (by decide) (by decide)]

lemma seclen_preserved_by_ssi (data : List Nat) (ind : Bool) (h : 1 < data.length) :
    get_section_length (set_section_syntax_indicator data ind) =
      get_section_length data := by
  unfold get_section_length
  rw [ssi_byte1_bits data ind h 0x0f (by decide) (by decide)]
  unfold set_section_syntax_indicator
  rw [getD_set_ne _ _ _ _ (by omega)]

lemma ssi_preserved_by_priv (data : List Nat) (ind : Bool) (h : 1 < data.length) :
    get_section_syntax_indicator (set_private_indicator data ind) =
      get_section_syntax_indicator data := by
  unfold get_section_syntax_indicator
  rw [priv_byte1_bits data ind h 0x80 (by decide) (by decide)]

lemma seclen_preserved_by_priv (data : List Nat) (ind : Bool) (h : 1 < data.length) :
    get_section_length (set_private_indicator data ind) =
      get_section_length data := by
  unfold get_section_length
  rw [priv_byte1_bits data ind h 0x0f (by decide) (by decide)]
  unfold set_private_indicator
  rw [getD_set_ne _ _ _ _ (by omega)]

lemma priv_reads_back (data : List Nat) (p : Bool) (h : 1 < data.length) :
    get_private_indicator (set_private_indicator data p) = p := by
  unfold get_private_indicator
  rw [priv_set_byte1 data p h]
  cases p
  · show decide ((data.getD 1 0 &&& 0xbf) &&& 0x40 ≠ 0) = false
    rw [Nat.and_assoc, show (0xbf &&& 0x40 : Nat) = 0 from by decide, Nat.and_zero]
    decide
  · show decide (((data.getD 1 0 &&& 0xbf) ||| 0x40) &&& 0x40 ≠ 0) = true
    rw [Nat.and_distrib_right, Nat.and_assoc,
      show (0xbf &&& 0x40 : Nat) = 0 from by decide, Nat.and_zero, Nat.zero_or]
    decide

lemma cni_preserved_by_version (data : List Nat) (v : Nat) (h : 5 < data.length) :
    get_current_next_indicator (set_version_number data v) =
      get_current_next_indicator data := by
  unfold get_current_next_indicator set_version_number
  rw [getD_set_self _ _ _ h]
  rw [masked_write_preserves _ _ _ _ (by decide) (by
    rw [Nat.and_assoc, show (0x3e &&& 0x01 : Nat) = 0 from by decide, Nat.and_zero])]

lemma version_preserved_by_cni (data : List Nat) (ind : Bool) (h : 5 < data.length) :
    get_version_number (set_current_next_indicator data ind) =
      get_version_number data := by
  unfold get_version_number set_current_next_indicator
  cases ind
  · rw [getD_set_self _ _ _ h]
    show ((data.getD 5 0 &&& 0xfe) &&& 0x3e) >>> 1 = (data.getD 5 0 &&& 0x3e) >>> 1
    rw [masked_clear_preserves _ _ _ (by decide)]
  · rw [getD_set_self _ _ _ h]
    show (((data.getD 5 0 &&& 0xfe) ||| 0x01) &&& 0x3e) >>> 1 =
      (data.getD 5 0 &&& 0x3e) >>> 1
    rw [masked_write_preserves _ _ _ _ (by decide) (by decide)]


lemma length_set_ssi (d : List Nat) (b : Bool) :
    (set_section_syntax_indicator d b).length = d.length := by
  unfold set_section_syntax_indicator
  cases b <;> simp

lemma length_set_priv (d : List Nat) (b : Bool) :
    (set_private_indicator d b).length = d.length := by
  unfold set_private_indicator
  cases b <;> simp

/-- C9 (confirmed): each field mutator of the builder clears and writes only
its own bits.  In byte 1, `set_section_syntax_indicator` preserves the
private-indicator bit and the section_length top nibble, and
`set_private_indicator` preserves the syntax-indicator bit and the nibble;
in byte 5, `set_version_number` preserves the current/next bit and
`set_current_next_indicator` preserves the version bits.  In particular a
true/false/true sequence of syntax-indicator writes after a private-indicator
write leaves the stored private_indicator and the length nibble unchanged. -/
theorem c9_bit_isolation (data : List Nat) (h6 : 6 ≤ data.length) :
    (∀ ind : Bool,
      get_private_indicator (set_section_syntax_indicator data ind) =
        get_private_indicator data ∧
      get_section_length (set_section_syntax_indicator data ind) =
        get_section_length data) ∧
    (∀ ind : Bool,
      get_section_syntax_indicator (set_private_indicator data ind) =
        get_section_syntax_indicator data ∧
      get_section_length (set_private_indicator data ind) =
        get_section_length data) ∧
    (∀ v : Nat,
      get_current_next_indicator (set_version_number data v) =
        get_current_next_indicator data) ∧
    (∀ ind : Bool,
      get_version_number (set_current_next_indicator data ind) =
        get_version_number data) ∧
    (∀ p i1 i2 i3 : Bool,
      get_private_indicator
        (set_section_syntax_indicator (set_section_syntax_indicator
          (set_section_syntax_indicator (set_private_indicator data p) i1) i2) i3) = p ∧
      get_section_length
        (set_section_syntax_indicator (set_section_syntax_indicator
          (set_section_syntax_indicator (set_private_indicator data p) i1) i2) i3) =
        get_section_length (set_private_indicator data p)) := by
  have h1 : 1 < data.length := by omega
  refine ⟨fun ind => ⟨priv_preserved_by_ssi data ind h1, seclen_preserved_by_ssi data ind h1⟩,
    fun ind => ⟨ssi_preserved_by_priv data ind h1, seclen_preserved_by_priv data ind h1⟩,
    fun v => cni_preserved_by_version data v (by omega),
    fun ind => version_preserved_by_cni data ind (by omega),
    fun p i1 i2 i3 => ?_⟩
  have hp1 : 1 < (set_private_indicator data p).length := by rw [length_set_priv]; omega
  have hs1 : 1 < (set_section_syntax_indicator (set_private_indicator data p) i1).length := by
    rw [length_set_ssi, length_set_priv]; omega
  have hs2 : 1 < (set_section_syntax_indicator
      (set_section_syntax_indicator (set_private_indicator data p) i1) i2).length := by
    rw [length_set_ssi, length_set_ssi, length_set_priv]; omega
  constructor
  · rw [priv_preserved_by_ssi _ i3 hs2, priv_preserved_by_ssi _ i2 hs1,
      priv_preserved_by_ssi _ i1 hp1, priv_reads_back data p h1]
  · rw [seclen_preserved_by_ssi _ i3 hs2, seclen_preserved_by_ssi _ i2 hs1,
      seclen_preserved_by_ssi _ i1 hp1]

/-- Witness for C9 on a 6-byte zeroed buffer with the t/t/f/t interleaving. -/
theorem c9_witness :
    get_private_indicator
      (set_section_syntax_indicator (set_section_syntax_indicator
        (set_section_syntax_indicator
          (set_private_indicator [0, 0, 0, 0, 0, 0] true) true) false) true) = true ∧
    get_section_length
      (set_section_syntax_indicator (set_section_syntax_indicator
        (set_section_syntax_indicator
          (set_private_indicator [0, 0, 0, 0, 0, 0] true) true) false) true) =
      get_section_length (set_private_indicator [0, 0, 0, 0, 0, 0] true) :=
  (c9_bit_isolation [0, 0, 0, 0, 0, 0] (by decide)).2.2.2.2 true true false true

lemma build_ext_eq (tid : Nat) (priv : Bool) (sl tide ver : Nat) (cni : Bool)
    (sn lsn : Nat) (payload : List Nat) (h5 : 5 ≤ sl) (hp : payload.length = sl - 5) :
    build tid true priv sl tide ver cni sn lsn payload =
      some ([tid,
             (if priv then 192 else 128) ||| (sl &&& 3840) >>> 8,
             sl &&& 255,
             (tide &&& 65280) >>> 8,
             tide &&& 255,
             (if cni then ((ver <<< 1) &&& 62) &&& 254 ||| 1
              else ((ver <<< 1) &&& 62) &&& 254),
             sn &&& 255,
             lsn &&& 255] ++ payload) := by
  unfold build create_section_data_block set_table_id set_section_syntax_indicator
    set_private_indicator set_section_length set_table_id_ext set_version_number
    set_current_next_indicator set_section_number set_last_section_number set_data
  rw [show sl + 3 = 8 + (sl - 5) from by omega, List.replicate_add]
  simp only [List.replicate, List.cons_append, List.nil_append]
  simp only [List.set_cons_zero, List.set_cons_succ, List.getD_cons_zero,
    List.getD_cons_succ, if_true, Nat.zero_and, Nat.zero_or]
  simp only [List.length_cons, List.length_replicate]
  rw [if_pos (by omega : sl - 5 + 1 + 1 + 1 + 1 + 1 + 1 + 1 + 1 - 8 ≤ payload.length)]
  rw [show sl - 5 + 1 + 1 + 1 + 1 + 1 + 1 + 1 + 1 - 8 = payload.length from by omega]
  simp only [List.take_succ_cons, List.take_zero, List.take_length]
  by_cases hpriv : priv
  · simp only [hpriv, if_true, List.cons_append, List.nil_append]
    rw [show ((128 : Nat) &&& 191 ||| 64) &&& 240 = 192 from by decide]
  · simp only [hpriv, Bool.false_eq_true, if_false, List.cons_append, List.nil_append]
    rw [show ((128 : Nat) &&& 191) &&& 240 = 128 from by decide]


lemma build_simple_eq (tid : Nat) (priv : Bool) (sl tide ver : Nat) (cni : Bool)
    (sn lsn : Nat) (payload : List Nat) (hp : payload.length = sl) :
    build tid false priv sl tide ver cni sn lsn payload =
      some ([tid,
             (if priv then 64 else 0) ||| (sl &&& 3840) >>> 8,
             sl &&& 255] ++ payload) := by
  unfold build create_section_data_block set_table_id set_section_syntax_indicator
    set_private_indicator set_section_length set_data
  rw [show sl + 3 = 3 + sl from by omega, List.replicate_add]
  simp only [List.replicate, List.cons_append, List.nil_append]
  simp only [List.set_cons_zero, List.set_cons_succ, List.getD_cons_zero,
    List.getD_cons_succ, Bool.false_eq_true, if_false, Nat.zero_and, Nat.zero_or]
  simp only [List.length_cons, List.length_replicate]
  rw [if_pos (by omega : sl + 1 + 1 + 1 - 3 ≤ payload.length)]
  rw [show sl + 1 + 1 + 1 - 3 = payload.length from by omega]
  simp only [List.take_succ_cons, List.take_zero, List.take_length]
  by_cases hpriv : priv
  · simp only [hpriv, if_true, List.cons_append, List.nil_append]
    rw [show ((64 : Nat) &&& 240) = 64 from by decide]
  · simp only [hpriv, Bool.false_eq_true, if_false, List.cons_append, List.nil_append,
      Nat.zero_and, Nat.zero_or]

lemma lt16_and (x : Nat) (h : x < 16) :
    x &&& 128 = 0 ∧ x &&& 64 = 0 ∧ x &&& 15 = x := by
  interval_cases x <;> exact ⟨by decide, by decide, by decide⟩

lemma and_shl8_shr8 (sl m : Nat) :
    (sl &&& (m <<< 8)) >>> 8 = (sl >>> 8) &&& m := by
  apply Nat.eq_of_testBit_eq
  intro i
  simp only [Nat.testBit_shiftRight, Nat.testBit_and, Nat.testBit_shiftLeft]
  rw [show 8 + i - 8 = i from by omega]
  simp [Nat.le_add_right]

lemma shr8_div (x : Nat) : x >>> 8 = x / 256 := by
  rw [Nat.shiftRight_eq_div_pow]

lemma shl8_mul (x : Nat) : x <<< 8 = x * 256 := by
  rw [Nat.shiftLeft_eq]

lemma and255_mod (x : Nat) : x &&& 255 = x % 256 := by
  rw [show (255 : Nat) = 2 ^ 8 - 1 from rfl, Nat.and_pow_two_sub_one_eq_mod]

lemma and255_self (x : Nat) (h : x < 256) : x &&& 255 = x := by
  rw [and255_mod]
  omega

lemma sl_recompose (sl : Nat) (h : sl < 4096) :
    ((((sl &&& 3840) >>> 8)) <<< 8) + (sl &&& 255) = sl := by
  rw [show (3840 : Nat) = 15 <<< 8 from rfl, and_shl8_shr8]
  rw [shr8_div]
  rw [(lt16_and (sl / 256) (by omega)).2.2]
  rw [shl8_mul, and255_mod]
  omega

lemma tide_recompose (tide : Nat) (h : tide < 65536) :
    (((tide &&& 65280) >>> 8) <<< 8) + (tide &&& 255) = tide := by
  rw [show (65280 : Nat) = 255 <<< 8 from rfl, and_shl8_shr8]
  rw [shr8_div, and255_self (tide / 256) (by omega)]
  rw [shl8_mul, and255_mod]
  omega


lemma mHdr_table_id (w : List Nat) (e : Bool) :
    (mHdr w e).table_id = some (get_table_id w) := by
  cases e <;> rfl

lemma mHdr_priv (w : List Nat) (e : Bool) :
    (mHdr w e).private_indicator = some (get_private_indicator w) := by
  cases e <;> rfl

lemma final_fields (w : List Nat) :
    (Final w).complete = true ∧
    (Final w).table_id = some (get_table_id w) ∧
    (Final w).section_syntax_indicator = some (get_section_syntax_indicator w) ∧
    (Final w).private_indicator = some (get_private_indicator w) ∧
    (Final w).section_length = some (get_section_length w) ∧
    (Final w).table_body = some ((w.drop 3).take (get_section_length w)) := by
  unfold Final
  dsimp only
  simp [mHdr_table_id, mHdr_ssi, mHdr_priv, mHdr_section_length]

lemma final_ext_fields (w : List Nat)
    (hx : (get_section_syntax_indicator w && decide (5 ≤ get_section_length w)) = true) :
    (Final w).table_id_extension = some (get_table_id_ext w) ∧
    (Final w).version = some (get_version_number w) ∧
    (Final w).current_next_indicator = some (get_current_next_indicator w) ∧
    (Final w).section_number = some (get_section_number w) ∧
    (Final w).last_section_number = some (get_last_section_number w) := by
  unfold Final
  dsimp only
  rw [hx]
  simp [mHdr, withExtHeader, headerSection]

lemma shr8_lt16 (sl : Nat) : (sl &&& 3840) >>> 8 < 16 := by
  rw [show (3840 : Nat) = 15 <<< 8 from rfl, and_shl8_shr8, shr8_div]
  have h := Nat.and_le_right (n := sl / 256) (m := 15)
  omega

lemma built_ext_getters (tid : Nat) (priv : Bool) (sl tide ver : Nat) (cni : Bool)
    (sn lsn : Nat) (payload : List Nat)
    (h4096 : sl < 4096) (h5 : 5 ≤ sl) (htide : tide < 65536) (hver : ver < 32)
    (hsn : sn < 256) (hlsn : lsn < 256) (hp : payload.length = sl - 5) :
    get_table_id ([tid,
        (if priv then 192 else 128) ||| (sl &&& 3840) >>> 8,
        sl &&& 255,
        (tide &&& 65280) >>> 8,
        tide &&& 255,
        (if cni then ((ver <<< 1) &&& 62) &&& 254 ||| 1
         else ((ver <<< 1) &&& 62) &&& 254),
        sn &&& 255,
        lsn &&& 255] ++ payload) = tid ∧
    get_section_syntax_indicator ([tid,
        (if priv then 192 else 128) ||| (sl &&& 3840) >>> 8,
        sl &&& 255,
        (tide &&& 65280) >>> 8,
        tide &&& 255,
        (if cni then ((ver <<< 1) &&& 62) &&& 254 ||| 1
         else ((ver <<< 1) &&& 62) &&& 254),
        sn &&& 255,
        lsn &&& 255] ++ payload) = true ∧
    get_private_indicator ([tid,
        (if priv then 192 else 128) ||| (sl &&& 3840) >>> 8,
        sl &&& 255,
        (tide &&& 65280) >>> 8,
        tide &&& 255,
        (if cni then ((ver <<< 1) &&& 62) &&& 254 ||| 1
         else ((ver <<< 1) &&& 62) &&& 254),
        sn &&& 255,
        lsn &&& 255] ++ payload) = priv ∧
    get_section_length ([tid,
        (if priv then 192 else 128) ||| (sl &&& 3840) >>> 8,
        sl &&& 255,
        (tide &&& 65280) >>> 8,
        tide &&& 255,
        (if cni then ((ver <<< 1) &&& 62) &&& 254 ||| 1
         else ((ver <<< 1) &&& 62) &&& 254),
        sn &&& 255,
        lsn &&& 255] ++ payload) = sl ∧
    get_table_id_ext ([tid,
        (if priv then 192 else 128) ||| (sl &&& 3840) >>> 8,
        sl &&& 255,
        (tide &&& 65280) >>> 8,
        tide &&& 255,
        (if cni then ((ver <<< 1) &&& 62) &&& 254 ||| 1
         else ((ver <<< 1) &&& 62) &&& 254),
        sn &&& 255,
        lsn &&& 255] ++ payload) = tide ∧
    get_version_number ([tid,
        (if priv then 192 else 128) ||| (sl &&& 3840) >>> 8,
        sl &&& 255,
        (tide &&& 65280) >>> 8,
        tide &&& 255,
        (if cni then ((ver <<< 1) &&& 62) &&& 254 ||| 1
         else ((ver <<< 1) &&& 62) &&& 254),
        sn &&& 255,
        lsn &&& 255] ++ payload) = ver ∧
    get_current_next_indicator ([tid,
        (if priv then 192 else 128) ||| (sl &&& 3840) >>> 8,
        sl &&& 255,
        (tide &&& 65280) >>> 8,
        tide &&& 255,
        (if cni then ((ver <<< 1) &&& 62) &&& 254 ||| 1
         else ((ver <<< 1) &&& 62) &&& 254),
        sn &&& 255,
        lsn &&& 255] ++ payload) = cni ∧
    get_section_number ([tid,
        (if priv then 192 else 128) ||| (sl &&& 3840) >>> 8,
        sl &&& 255,
        (tide &&& 65280) >>> 8,
        tide &&& 255,
        (if cni then ((ver <<< 1) &&& 62) &&& 254 ||| 1
         else ((ver <<< 1) &&& 62) &&& 254),
        sn &&& 255,
        lsn &&& 255] ++ payload) = sn ∧
    get_last_section_number ([tid,
        (if priv then 192 else 128) ||| (sl &&& 3840) >>> 8,
        sl &&& 255,
        (tide &&& 65280) >>> 8,
        tide &&& 255,
        (if cni then ((ver <<< 1) &&& 62) &&& 254 ||| 1
         else ((ver <<< 1) &&& 62) &&& 254),
        sn &&& 255,
        lsn &&& 255] ++ payload) = lsn ∧
    ([tid,
        (if priv then 192 else 128) ||| (sl &&& 3840) >>> 8,
        sl &&& 255,
        (tide &&& 65280) >>> 8,
        tide &&& 255,
        (if cni then ((ver <<< 1) &&& 62) &&& 254 ||| 1
         else ((ver <<< 1) &&& 62) &&& 254),
        sn &&& 255,
        lsn &&& 255] ++ payload).length = sl + 3 ∧
    ([tid,
        (if priv then 192 else 128) ||| (sl &&& 3840) >>> 8,
        sl &&& 255,
        (tide &&& 65280) >>> 8,
        tide &&& 255,
        (if cni then ((ver <<< 1) &&& 62) &&& 254 ||| 1
         else ((ver <<< 1) &&& 62) &&& 254),
        sn &&& 255,
        lsn &&& 255] ++ payload).drop 8 = payload := by
  have hX : (sl &&& 3840) >>> 8 < 16 := shr8_lt16 sl
  refine ⟨rfl, ?_, ?_, ?_, ?_, ?_, ?_, ?_, ?_, ?_, rfl⟩
  · show decide (((if priv then 192 else 128) ||| (sl &&& 3840) >>> 8) &&& 128 ≠ 0) = true
    have hand : ((if priv then 192 else 128) ||| (sl &&& 3840) >>> 8) &&& 128 = 128 := by
      rw [Nat.and_distrib_right, (lt16_and _ hX).1]
      by_cases hpriv : priv
      · rw [if_pos hpriv]
        decide
      · rw [if_neg hpriv]
        decide
    rw [hand]
    decide
  · show decide (((if priv then 192 else 128) ||| (sl &&& 3840) >>> 8) &&& 64 ≠ 0) = priv
    have hand : ((if priv then 192 else 128) ||| (sl &&& 3840) >>> 8) &&& 64 =
        (if priv then 64 else 0) := by
      rw [Nat.and_distrib_right, (lt16_and _ hX).2.1]
      by_cases hpriv : priv
      · rw [if_pos hpriv, if_pos hpriv]
        decide
      · rw [if_neg hpriv, if_neg hpriv]
        decide
    rw [hand]
    by_cases hpriv : priv
    · rw [if_pos hpriv, hpriv]
      decide
    · rw [if_neg hpriv]
      rw [show priv = false from by revert hpriv; cases priv <;> simp]
      decide
  · show ((((if priv then 192 else 128) ||| (sl &&& 3840) >>> 8) &&& 15) <<< 8) +
      (sl &&& 255) = sl
    have hand : ((if priv then 192 else 128) ||| (sl &&& 3840) >>> 8) &&& 15 =
        (sl &&& 3840) >>> 8 := by
      rw [Nat.and_distrib_right, (lt16_and _ hX).2.2]
      by_cases hpriv : priv
      · rw [if_pos hpriv, show (192 &&& 15 : Nat) = 0 from by decide, Nat.zero_or]
      · rw [if_neg hpriv, show (128 &&& 15 : Nat) = 0 from by decide, Nat.zero_or]
    rw [hand]
    exact sl_recompose sl h4096
  · show (((tide &&& 65280) >>> 8) <<< 8) + (tide &&& 255) = tide
    exact tide_recompose tide htide
  · show ((if cni then ((ver <<< 1) &&& 62) &&& 254 ||| 1
        else ((ver <<< 1) &&& 62) &&& 254) &&& 62) >>> 1 = ver
    by_cases hcni : cni
    · rw [if_pos hcni]
      interval_cases ver <;> decide
    · rw [if_neg hcni]
      interval_cases ver <;> decide
  · show decide ((if cni then ((ver <<< 1) &&& 62) &&& 254 ||| 1
        else ((ver <<< 1) &&& 62) &&& 254) &&& 1 ≠ 0) = cni
    by_cases hcni : cni
    · rw [if_pos hcni, hcni]
      interval_cases ver <;> decide
    · rw [if_neg hcni, show cni = false from by revert hcni; cases cni <;> simp]
      interval_cases ver <;> decide
  · exact and255_self sn hsn
  · exact and255_self lsn hlsn
  · simp only [List.length_append, List.length_cons, List.length_nil, hp]
    omega

lemma built_simple_getters (tid : Nat) (priv : Bool) (sl : Nat)
    (payload : List Nat) (h4096 : sl < 4096) (hp : payload.length = sl) :
    get_table_id ([tid,
        (if priv then 64 else 0) ||| (sl &&& 3840) >>> 8,
        sl &&& 255] ++ payload) = tid ∧
    get_section_syntax_indicator ([tid,
        (if priv then 64 else 0) ||| (sl &&& 3840) >>> 8,
        sl &&& 255] ++ payload) = false ∧
    get_private_indicator ([tid,
        (if priv then 64 else 0) ||| (sl &&& 3840) >>> 8,
        sl &&& 255] ++ payload) = priv ∧
    get_section_length ([tid,
        (if priv then 64 else 0) ||| (sl &&& 3840) >>> 8,
        sl &&& 255] ++ payload) = sl ∧
    ([tid,
        (if priv then 64 else 0) ||| (sl &&& 3840) >>> 8,
        sl &&& 255] ++ payload).length = sl + 3 ∧
    ([tid,
        (if priv then 64 else 0) ||| (sl &&& 3840) >>> 8,
        sl &&& 255] ++ payload).drop 3 = payload := by
  have hX : (sl &&& 3840) >>> 8 < 16 := shr8_lt16 sl
  refine ⟨rfl, ?_, ?_, ?_, ?_, rfl⟩
  · show decide (((if priv then 64 else 0) ||| (sl &&& 3840) >>> 8) &&& 128 ≠ 0) = false
    have hand : ((if priv then 64 else 0) ||| (sl &&& 3840) >>> 8) &&& 128 = 0 := by
      rw [Nat.and_distrib_right, (lt16_and _ hX).1]
      by_cases hpriv : priv
      · rw [if_pos hpriv]
        decide
      · rw [if_neg hpriv]
        decide
    rw [hand]
    decide
  · show decide (((if priv then 64 else 0) ||| (sl &&& 3840) >>> 8) &&& 64 ≠ 0) = priv
    have hand : ((if priv then 64 else 0) ||| (sl &&& 3840) >>> 8) &&& 64 =
        (if priv then 64 else 0) := by
      rw [Nat.and_distrib_right, (lt16_and _ hX).2.1]
      by_cases hpriv : priv
      · rw [if_pos hpriv]
        decide
      · rw [if_neg hpriv]
        decide
    rw [hand]
    by_cases hpriv : priv
    · rw [if_pos hpriv, hpriv]
      decide
    · rw [if_neg hpriv, show priv = false from by revert hpriv; cases priv <;> simp]
      decide
  · show ((((if priv then 64 else 0) ||| (sl &&& 3840) >>> 8) &&& 15) <<< 8) +
      (sl &&& 255) = sl
    have hand : ((if priv then 64 else 0) ||| (sl &&& 3840) >>> 8) &&& 15 =
        (sl &&& 3840) >>> 8 := by
      rw [Nat.and_distrib_right, (lt16_and _ hX).2.2]
      by_cases hpriv : priv
      · rw [if_pos hpriv, show (64 &&& 15 : Nat) = 0 from by decide, Nat.zero_or]
      · rw [if_neg hpriv, show (0 &&& 15 : Nat) = 0 from by decide, Nat.zero_or]
    rw [hand]
    exact sl_recompose sl h4096
  · simp only [List.length_append, List.length_cons, List.length_nil, hp]
    omega


/-- C2 (amended): round trip.  Serializing a section with the builder's
field and payload writers into a zero-initialized `section_length + 3`
buffer and feeding the bytes back through a fresh assembler — in one chunk
or any stream-ordered split whose FIRST chunk holds at least the 3 header
bytes — yields a completed section with identical table_id,
section_syntax_indicator, private_indicator, section_length,
extended-header fields (when present) and payload bytes (`table_body`
beyond the extended header, i.e. the bytes the builder's `set_data` wrote).
The claim's unrestricted "one or many chunk splits" fails: splits whose
first chunk is shorter than 3 bytes crash the assembler (see the
counterexample and C1). -/
theorem c2_round_trip :
    (∀ (tid : Nat) (priv : Bool) (sl tide ver : Nat) (cni : Bool) (sn lsn : Nat)
        (payload : List Nat),
      sl < 4096 → 5 ≤ sl → tide < 65536 → ver < 32 → sn < 256 → lsn < 256 →
      payload.length = sl - 5 →
      ∃ w, build tid true priv sl tide ver cni sn lsn payload = some w ∧
        ∀ (c0 : List Nat) (cs : List (List Nat)),
          (c0 :: cs).flatten = w → 3 ≤ c0.length →
          ∃ s, feedList Section.init (c0 :: cs) = some s ∧
            s.complete = true ∧
            s.table_id = some tid ∧
            s.section_syntax_indicator = some true ∧
            s.private_indicator = some priv ∧
            s.section_length = some sl ∧
            s.table_id_extension = some tide ∧
            s.version = some ver ∧
            s.current_next_indicator = some cni ∧
            s.section_number = some sn ∧
            s.last_section_number = some lsn ∧
            ∃ tb, s.table_body = some tb ∧ tb.drop 5 = payload) ∧
    (∀ (tid : Nat) (priv : Bool) (sl tide ver : Nat) (cni : Bool) (sn lsn : Nat)
        (payload : List Nat),
      sl < 4096 → payload.length = sl →
      ∃ w, build tid false priv sl tide ver cni sn lsn payload = some w ∧
        ∀ (c0 : List Nat) (cs : List (List Nat)),
          (c0 :: cs).flatten = w → 3 ≤ c0.length →
          ∃ s, feedList Section.init (c0 :: cs) = some s ∧
            s.complete = true ∧
            s.table_id = some tid ∧
            s.section_syntax_indicator = some false ∧
            s.private_indicator = some priv ∧
            s.section_length = some sl ∧
            s.table_body = some payload) := by
  constructor
  · intro tid priv sl tide ver cni sn lsn payload h4096 h5 htide hver hsn hlsn hp
    refine ⟨_, build_ext_eq tid priv sl tide ver cni sn lsn payload h5 hp, ?_⟩
    obtain ⟨g0, gssi, gpriv, gsl, gtide, gver, gcni, gsn, glsn, glen, gdrop⟩ :=
      built_ext_getters tid priv sl tide ver cni sn lsn payload
        h4096 h5 htide hver hsn hlsn hp
    intro c0 cs hj h3
    have hwire : Wire ([tid,
        (if priv then 192 else 128) ||| (sl &&& 3840) >>> 8,
        sl &&& 255,
        (tide &&& 65280) >>> 8,
        tide &&& 255,
        (if cni then ((ver <<< 1) &&& 62) &&& 254 ||| 1
         else ((ver <<< 1) &&& 62) &&& 254),
        sn &&& 255,
        lsn &&& 255] ++ payload) := by
      unfold Wire
      rw [glen, gsl]
    have hfeed := assemble_split _ hwire c0 cs h3 hj
    refine ⟨_, hfeed, ?_⟩
    obtain ⟨f0, f1, f2, f3, f4, f5⟩ := final_fields _
    have hx : (get_section_syntax_indicator ([tid,
        (if priv then 192 else 128) ||| (sl &&& 3840) >>> 8,
        sl &&& 255,
        (tide &&& 65280) >>> 8,
        tide &&& 255,
        (if cni then ((ver <<< 1) &&& 62) &&& 254 ||| 1
         else ((ver <<< 1) &&& 62) &&& 254),
        sn &&& 255,
        lsn &&& 255] ++ payload) &&
        decide (5 ≤ get_section_length ([tid,
        (if priv then 192 else 128) ||| (sl &&& 3840) >>> 8,
        sl &&& 255,
        (tide &&& 65280) >>> 8,
        tide &&& 255,
        (if cni then ((ver <<< 1) &&& 62) &&& 254 ||| 1
         else ((ver <<< 1) &&& 62) &&& 254),
        sn &&& 255,
        lsn &&& 255] ++ payload))) = true := by
      rw [gssi, gsl]
      simp [h5]
    obtain ⟨x1, x2, x3, x4, x5⟩ := final_ext_fields _ hx
    refine ⟨f0, ?_, ?_, ?_, ?_, ?_, ?_, ?_, ?_, ?_, ?_⟩
    · rw [f1, g0]
    · rw [f2, gssi]
    · rw [f3, gpriv]
    · rw [f4, gsl]
    · rw [x1, gtide]
    · rw [x2, gver]
    · rw [x3, gcni]
    · rw [x4, gsn]
    · rw [x5, glsn]
    · refine ⟨_, f5, ?_⟩
      rw [gsl]
      rw [List.drop_take, List.drop_drop]
      rw [show (3 + 5 : Nat) = 8 from rfl, gdrop]
      rw [show sl - 5 = payload.length from by omega, List.take_length]
  · intro tid priv sl tide ver cni sn lsn payload h4096 hp
    refine ⟨_, build_simple_eq tid priv sl tide ver cni sn lsn payload hp, ?_⟩
    obtain ⟨g0, gssi, gpriv, gsl, glen, gdrop⟩ :=
      built_simple_getters tid priv sl payload h4096 hp
    intro c0 cs hj h3
    have hwire : Wire ([tid,
        (if priv then 64 else 0) ||| (sl &&& 3840) >>> 8,
        sl &&& 255] ++ payload) := by
      unfold Wire
      rw [glen, gsl]
    have hfeed := assemble_split _ hwire c0 cs h3 hj
    refine ⟨_, hfeed, ?_⟩
    obtain ⟨f0, f1, f2, f3, f4, f5⟩ := final_fields _
    refine ⟨f0, ?_, ?_, ?_, ?_, ?_⟩
    · rw [f1, g0]
    · rw [f2, gssi]
    · rw [f3, gpriv]
    · rw [f4, gsl]
    · rw [f5, gsl, gdrop]
      rw [show payload.take sl = payload from by rw [← hp]; exact List.take_length _]


/-- C2 counterexample: the builder's output for a 4-byte simple section,
fed back one byte at a time (a split the claim covers), crashes the fresh
assembler instead of reproducing the section. -/
theorem c2_counterexample :
    build 0 false false 1 0 0 false 0 0 [171] = some [0, 0, 1, 171] ∧
    feedList Section.init [[0], [0], [1], [171]] = none := by decide

/-- Witness for C2: a concrete extended section built and reassembled as a
single chunk reproduces every field. -/
theorem c2_witness :
    ∃ s, feedList Section.init [[1, 128, 9, 18, 52, 21, 0, 1, 170, 187, 204, 221]] =
        some s ∧
      s.complete = true ∧
      s.table_id = some 1 ∧
      s.section_syntax_indicator = some true ∧
      s.private_indicator = some false ∧
      s.section_length = some 9 ∧
      s.table_id_extension = some 4660 ∧
      s.version = some 10 ∧
      s.current_next_indicator = some true ∧
      s.section_number = some 0 ∧
      s.last_section_number = some 1 ∧
      ∃ tb, s.table_body = some tb ∧ tb.drop 5 = [170, 187, 204, 221] := by
  obtain ⟨w, hbw, hsplit⟩ := c2_round_trip.1 1 false 9 4660 10 true 0 1
    [170, 187, 204, 221] (by omega) (by omega) (by omega) (by omega) (by omega)
    (by omega) (by decide)
  have hb2 : build 1 true false 9 4660 10 true 0 1 [170, 187, 204, 221] =
      some [1, 128, 9, 18, 52, 21, 0, 1, 170, 187, 204, 221] := by decide
  rw [hbw] at hb2
  have hw : w = [1, 128, 9, 18, 52, 21, 0, 1, 170, 187, 204, 221] :=
    (Option.some.injEq _ _).mp hb2
  subst hw
  exact hsplit [1, 128, 9, 18, 52, 21, 0, 1, 170, 187, 204, 221] [] (by simp) (by decide)

end Mpeg2Psi
